import Mathlib

/-!
Verification development for the Ag3 data-access layer
(`malariagen_data/ag3.py`).

The Python class `Ag3` provides read access to a genomic data release laid
out under a root location: a manifest per release, per-sample-set metadata
tables, per-sample-set genotype arrays, shared site arrays (POS/REF/ALT),
per-mask site-filter arrays and the reference genome sequence.

We embed it shallowly in two layers:

* a pure layer (`Storage` plus the operations below) giving the values the
  operations return over a functioning store — tables are lists of rows,
  dask arrays are lists (axis 0 = position axis, axis 1 = sample axis);
* a stateful layer (`World`/`Ag3State`, suffix `M`) making the cache
  dictionaries and the physical open operations explicit, for the claims
  about memoization.
-/

set_option autoImplicit false

namespace Ag3Spec

/-- Error taxonomy.  The source raises Python exceptions; the constructors
follow the specification's language-neutral names: `NotFoundError` models the
`ValueError` raised for an unknown release id or an unresolvable sample-set
id, `InvalidArgumentError` the `TypeError` for a malformed `sample_sets`
argument, `ConfigurationError` the `ValueError` for an empty release set,
`StorageError` a propagated filesystem/store exception, `IndexError` and
`ShapeError` the NumPy exceptions of the scatter assignment in
`is_accessible`, and `RecursionError` Python's recursion limit (reachable
only if the sample-set expansion recursion never bottoms out). -/
inductive Err where
  | NotFoundError : Err
  | InvalidArgumentError : Err
  | ConfigurationError : Err
  | StorageError : Err
  | IndexError : Err
  | ShapeError : Err
  | RecursionError : Err
  deriving DecidableEq, Repr

/-- `True` exactly for a successful `Except` result. -/
def exceptOk {α : Type} : Except Err α → Bool
  | Except.ok _ => true
  | Except.error _ => false

instance exceptDecEq {ε α : Type} [DecidableEq ε] [DecidableEq α] :
    DecidableEq (Except ε α) := fun a b =>
  match a, b with
  | Except.ok x, Except.ok y =>
    if h : x = y then isTrue (by rw [h]) else isFalse (by simp [h])
  | Except.error x, Except.error y =>
    if h : x = y then isTrue (by rw [h]) else isFalse (by simp [h])
  | Except.ok _, Except.error _ => isFalse (by simp)
  | Except.error _, Except.ok _ => isFalse (by simp)

/-- Sequential map over a list where each element may fail, stopping at the
first error: the list comprehensions
`[self.f(sample_sets=c, ...) for c in sample_sets]` in the source, where any
exception aborts the whole comprehension. -/
def mapExcept {α β : Type} (f : α → Except Err β) : List α → Except Err (List β)
  | [] => Except.ok []
  | x :: xs =>
    match f x with
    | Except.error e => Except.error e
    | Except.ok y =>
      match mapExcept f xs with
      | Except.error e => Except.error e
      | Except.ok ys => Except.ok (y :: ys)

/-- Row-wise concatenation of tables: `pandas.concat(dfs, axis=0, sort=False)`
followed by `reset_index(drop=True)`.  Rows of the pieces in order; positions
in the result list are the re-numbered contiguous index. -/
def concatTables {α : Type} : List (List α) → List α
  | [] => []
  | t :: ts => t ++ concatTables ts

/-- Boolean selection along axis 0: `dask.array.compress(filter_pass, d, axis=0)`.
The data invariant keeps the mask and the position axis the same length; on
that domain this is exact NumPy `compress` behaviour. -/
def compressBy {α : Type} : List Bool → List α → List α
  | true :: m, x :: xs => x :: compressBy m xs
  | false :: m, _ :: xs => compressBy m xs
  | _, _ => []

/-- Concatenation along axis 1 (the sample axis):
`dask.array.concatenate(ds, axis=1)`.  Axis 0 is the outer list (positions);
each row gains the columns of every piece in order.  The source only calls it
with pieces whose axis-0 lengths agree (all sample sets share one site
coordinate space per contig). -/
def concat_axis1 {α : Type} : List (List (List α)) → List (List α)
  | [] => []
  | [d] => d
  | d :: rest => List.zipWith (fun a b => a ++ b) d (concat_axis1 rest)

/-- One raw row of a general metadata table `samples.meta.csv`: the
`sample_id` key column plus the remaining columns, abstracted as `payload`. -/
structure GeneralRaw where
  sample_id : String
  payload : String
  deriving DecidableEq, Repr

/-- One raw row of a species-call table `samples.species_{method}.csv`:
`sample_id`, the two raw call columns (read with `na_values=""` and dtype
`object`, so a missing value is `none`), and the remaining columns. -/
structure SpeciesRaw where
  sample_id : String
  species_gambcolu_arabiensis : Option String
  species_gambiae_coluzzii : Option String
  payload : String
  deriving DecidableEq, Repr

/-- The pure content of a functioning store, as seen through the collaborators
(fsspec + pandas + zarr): everything `Ag3` reads, keyed the way the source
keys it.  `releases` is the set discovered at `__init__`; `calldata` maps
(contig, sample_set, field) to the genotype array with cells abstracted as
`Int`; `filter_pass` maps (contig, mask, analysis) to the boolean site-filter
array. -/
structure Storage where
  releases : List String
  manifest : String → List String
  general_metadata : String → List GeneralRaw
  species_calls_data : String → String → String → List SpeciesRaw
  filter_pass : String → String → String → List Bool
  pos_data : String → List Int
  ref_data : String → List String
  alt_data : String → List (List String)
  calldata : String → String → String → List (List Int)
  genome : String → List Char

/-- `Ag3.sample_sets(release)`: raises (`ValueError`, spec name
`NotFoundError`) when `release` is not among the discovered releases,
otherwise returns the manifest table (its `sample_set` column). -/
def sample_sets (st : Storage) (release : String) : Except Err (List String) :=
  if release ∈ st.releases then Except.ok (st.manifest release)
  else Except.error Err.NotFoundError

/-- `Ag3.v3_wild`: all sample sets of release "v3" except the cross
sample set "AG1000G-X". -/
def v3_wild (st : Storage) : Except Err (List String) :=
  match sample_sets st "v3" with
  | Except.error e => Except.error e
  | Except.ok m => Except.ok (m.filter (fun x => x != "AG1000G-X"))

/-- Loop body of `Ag3._lookup_release`: scan the given releases in order;
inside the loop `self.sample_sets(release=release)` cannot hit the
unknown-release branch because the loop ranges over `self._releases`, so the
manifest is consulted directly. -/
def lookup_release_scan (st : Storage) (sample_set : String) : List String → Except Err String
  | [] => Except.error Err.NotFoundError
  | r :: rest =>
    if (st.manifest r).contains sample_set then Except.ok r
    else lookup_release_scan st sample_set rest

/-- `Ag3._lookup_release(sample_set)`: first release whose manifest contains
the sample set, `ValueError` (spec name `NotFoundError`) if none does. -/
def lookup_release (st : Storage) (sample_set : String) : Except Err String :=
  lookup_release_scan st sample_set st.releases

/-- Character-list prefix test, `swith s.data p.data` below. -/
def swith : List Char → List Char → Bool
  | _, [] => true
  | [], _ :: _ => false
  | c :: cs, d :: ds => c == d && swith cs ds

/-- Python's `str.startswith(prefix)`, modelled on the underlying character
lists. -/
def str_startsWith (s p : String) : Bool :=
  swith s.data p.data

/-- The polymorphic `sample_sets` argument: a single string or a list of
strings (the source also accepts tuples, identical to lists here; any other
type raises `TypeError`, unrepresentable in this argument type). -/
inductive SampleSetsArg where
  | str : String → SampleSetsArg
  | list : List String → SampleSetsArg
  deriving DecidableEq, Repr

/-- `Ag3._prep_sample_sets_arg`: the sentinel "v3_wild" expands to
`v3_wild`; any other string starting with "v3" is treated as a release id
and expands to that release's manifest; any other value passes through. -/
def prep_sample_sets_arg (st : Storage) : SampleSetsArg → Except Err SampleSetsArg
  | SampleSetsArg.str s =>
    if s = "v3_wild" then
      match v3_wild st with
      | Except.error e => Except.error e
      | Except.ok l => Except.ok (SampleSetsArg.list l)
    else if str_startsWith s "v3" then
      match sample_sets st s with
      | Except.error e => Except.error e
      | Except.ok l => Except.ok (SampleSetsArg.list l)
    else Except.ok (SampleSetsArg.str s)
  | SampleSetsArg.list l => Except.ok (SampleSetsArg.list l)

/-- One row of the table returned by `Ag3._read_general_metadata`: the raw
columns plus the two convenience columns `sample_set` and `release` added by
the reader. -/
structure GeneralRow where
  sample_id : String
  payload : String
  sample_set : String
  release : String
  deriving DecidableEq, Repr

/-- `Ag3._read_general_metadata(sample_set)` (cache aside, which does not
change the value): look up the release, read the table, annotate each row
with `sample_set` and `release`. -/
def read_general_metadata (st : Storage) (sample_set : String) :
    Except Err (List GeneralRow) :=
  match lookup_release st sample_set with
  | Except.error e => Except.error e
  | Except.ok release =>
    Except.ok ((st.general_metadata sample_set).map
      (fun r => { sample_id := r.sample_id, payload := r.payload,
                  sample_set := sample_set, release := release }))

/-- One row of the table returned by `Ag3._read_species_calls`: the raw
columns plus the derived `species` column (initialized to missing). -/
structure SpeciesRow where
  sample_id : String
  species_gambcolu_arabiensis : Option String
  species_gambiae_coluzzii : Option String
  payload : String
  species : Option String
  deriving DecidableEq, Repr

/-- One masked assignment `df.loc[loc, "species"] = v` where `loc` is a
boolean condition on the row: rows matching `p` get `species := v`, others
are unchanged. -/
def species_set_where (p : SpeciesRow → Bool) (v : String)
    (rows : List SpeciesRow) : List SpeciesRow :=
  rows.map (fun r => if p r then { r with species := some v } else r)

/-- The species-derivation block of `Ag3._read_species_calls`: start with
`species` missing everywhere (`np.nan`), then the five masked assignments in
source order.  A comparison of a missing value with a string literal is
`False` in pandas, matching `none == some _`. -/
def derive_species (rows : List SpeciesRaw) : List SpeciesRow :=
  let t0 := rows.map (fun r =>
    { sample_id := r.sample_id,
      species_gambcolu_arabiensis := r.species_gambcolu_arabiensis,
      species_gambiae_coluzzii := r.species_gambiae_coluzzii,
      payload := r.payload, species := none })
  let t1 := species_set_where
    (fun r => r.species_gambcolu_arabiensis == some "arabiensis")
    "arabiensis" t0
  let t2 := species_set_where
    (fun r => r.species_gambcolu_arabiensis == some "intermediate")
    "intermediate_arabiensis_gambiae" t1
  let t3 := species_set_where
    (fun r => r.species_gambcolu_arabiensis == some "gamb_colu" &&
              r.species_gambiae_coluzzii == some "gambiae")
    "gambiae" t2
  let t4 := species_set_where
    (fun r => r.species_gambcolu_arabiensis == some "gamb_colu" &&
              r.species_gambiae_coluzzii == some "coluzzii")
    "coluzzii" t3
  let t5 := species_set_where
    (fun r => r.species_gambcolu_arabiensis == some "gamb_colu" &&
              r.species_gambiae_coluzzii == some "intermediate")
    "intermediate_gambiae_coluzzii" t4
  t5

/-- `Ag3._read_species_calls(sample_set, analysis, method)` (cache aside):
look up the release, read the raw table, derive the `species` column. -/
def read_species_calls (st : Storage) (sample_set analysis method : String) :
    Except Err (List SpeciesRow) :=
  match lookup_release st sample_set with
  | Except.error e => Except.error e
  | Except.ok _ =>
    Except.ok (derive_species (st.species_calls_data sample_set analysis method))

/-- `Ag3.species_calls(sample_sets, analysis, method)`.  The recursion on
list elements goes through `_prep_sample_sets_arg` again, so it is bounded
only by the data; `fuel` models Python's recursion limit. -/
def species_calls : Nat → Storage → SampleSetsArg → String → String →
    Except Err (List SpeciesRow)
  | 0, _, _, _, _ => Except.error Err.RecursionError
  | fuel+1, st, arg, analysis, method =>
    match prep_sample_sets_arg st arg with
    | Except.error e => Except.error e
    | Except.ok (SampleSetsArg.str s) => read_species_calls st s analysis method
    | Except.ok (SampleSetsArg.list l) =>
      match mapExcept
          (fun c => species_calls fuel st (SampleSetsArg.str c) analysis method) l with
      | Except.error e => Except.error e
      | Except.ok dfs => Except.ok (concatTables dfs)

/-- One row of the table returned by `Ag3.sample_metadata`: the general
metadata columns, and the species-call columns when a species-call
specification was given (`pandas.merge` keeps one `sample_id` column; the
match makes the two copies equal). -/
structure SampleRow where
  g : GeneralRow
  sp : Option SpeciesRow
  deriving DecidableEq, Repr

/-- `df.merge(df_species, on="sample_id", sort=False)`: an inner join — for
each left row in order, the matching right rows in right-table order; rows
without a partner on either side produce nothing. -/
def merge_on_sample_id (gs : List GeneralRow) (ss : List SpeciesRow) :
    List SampleRow :=
  concatTables (gs.map (fun g =>
    (ss.filter (fun s => s.sample_id == g.sample_id)).map
      (fun s => { g := g, sp := some s })))

/-- `Ag3.sample_metadata(sample_sets, species_calls)`: resolve the argument;
for a single sample set read general metadata and, when a species-call
specification is given, inner-join the species calls on `sample_id`; for a
list, assemble each element recursively and concatenate with the row index
re-numbered (`pandas.concat` + `reset_index(drop=True)`). -/
def sample_metadata : Nat → Storage → SampleSetsArg → Option (String × String) →
    Except Err (List SampleRow)
  | 0, _, _, _ => Except.error Err.RecursionError
  | fuel+1, st, arg, spc =>
    match prep_sample_sets_arg st arg with
    | Except.error e => Except.error e
    | Except.ok (SampleSetsArg.str s) =>
      match read_general_metadata st s with
      | Except.error e => Except.error e
      | Except.ok df =>
        match spc with
        | none => Except.ok (df.map (fun g => { g := g, sp := none }))
        | some (analysis, method) =>
          match read_species_calls st s analysis method with
          | Except.error e => Except.error e
          | Except.ok df_species => Except.ok (merge_on_sample_id df df_species)
    | Except.ok (SampleSetsArg.list l) =>
      match mapExcept (fun c => sample_metadata fuel st (SampleSetsArg.str c) spc) l with
      | Except.error e => Except.error e
      | Except.ok dfs => Except.ok (concatTables dfs)

/-- `Ag3.site_filters(contig, mask, field="filter_pass", analysis)`: the
boolean filter array for the mask at the contig (only the default field
`filter_pass` is modelled; the store open is cached, which does not change
the value). -/
def site_filters (st : Storage) (contig mask analysis : String) : List Bool :=
  st.filter_pass contig mask analysis

/-- `Ag3.snp_sites(contig, field="POS")`: the shared site-position array
(1-based coordinates), no mask applied. -/
def snp_sites_field_POS (st : Storage) (contig : String) : List Int :=
  st.pos_data contig

/-- `Ag3.snp_sites(contig, field="REF")`, no mask applied. -/
def snp_sites_field_REF (st : Storage) (contig : String) : List String :=
  st.ref_data contig

/-- `Ag3.snp_sites(contig, field="ALT")`, no mask applied. -/
def snp_sites_field_ALT (st : Storage) (contig : String) : List (List String) :=
  st.alt_data contig

/-- `Ag3.snp_sites(contig, field=None, site_mask, site_filters)`: the tuple
(POS, REF, ALT), each fetched with no mask, then — when `site_mask` is given —
each compressed along the position axis by the one evaluated filter array. -/
def snp_sites_all (st : Storage) (contig : String) (site_mask : Option String)
    (site_filters_analysis : String) :
    List Int × List String × List (List String) :=
  let ret := (snp_sites_field_POS st contig,
              snp_sites_field_REF st contig,
              snp_sites_field_ALT st contig)
  match site_mask with
  | none => ret
  | some m =>
    let fp := site_filters st contig m site_filters_analysis
    (compressBy fp ret.1, compressBy fp ret.2.1, compressBy fp ret.2.2)

/-- `Ag3.snp_genotypes(contig, sample_sets, field, site_mask, site_filters)`:
resolve the argument; a single sample set opens its store (requiring a
release lookup) and yields the field's array; a list recurses per element
with `site_mask=None` and the default `site_filters` and concatenates along
the sample axis; finally, when `site_mask` is given, one compress along the
position axis. -/
def snp_genotypes : Nat → Storage → String → SampleSetsArg → String →
    Option String → String → Except Err (List (List Int))
  | 0, _, _, _, _, _, _ => Except.error Err.RecursionError
  | fuel+1, st, contig, arg, field, site_mask, sfa =>
    match prep_sample_sets_arg st arg with
    | Except.error e => Except.error e
    | Except.ok resolved =>
      let dres : Except Err (List (List Int)) :=
        match resolved with
        | SampleSetsArg.str s =>
          match lookup_release st s with
          | Except.error e => Except.error e
          | Except.ok _ => Except.ok (st.calldata contig s field)
        | SampleSetsArg.list l =>
          match mapExcept
              (fun c => snp_genotypes fuel st contig (SampleSetsArg.str c)
                field none "dt_20200416") l with
          | Except.error e => Except.error e
          | Except.ok ds => Except.ok (concat_axis1 ds)
      match dres with
      | Except.error e => Except.error e
      | Except.ok d =>
        match site_mask with
        | none => Except.ok d
        | some m => Except.ok (compressBy (site_filters st contig m sfa) d)

/-- `Ag3.genome_sequence(contig)`: the reference sequence for the contig. -/
def genome_sequence (st : Storage) (contig : String) : List Char :=
  st.genome contig

/-- NumPy integer indexing into an axis of length `n`: indices in `[0, n)`
are used as-is, indices in `[-n, 0)` wrap around from the end, anything else
raises `IndexError`. -/
def npIndex (n : Nat) (i : Int) : Option Nat :=
  if 0 ≤ i ∧ i < (n : Int) then some i.toNat
  else if 0 ≤ i + (n : Int) ∧ i < 0 then some (i + (n : Int)).toNat
  else none

/-- NumPy broadcast of the right-hand side of an indexed assignment to the
index shape: same length passes through, a one-element array is repeated,
anything else raises a shape-mismatch error. -/
def broadcast_to (vals : List Bool) (n : Nat) : Option (List Bool) :=
  if vals.length = n then some vals
  else
    match vals with
    | [v] => some (List.replicate n v)
    | _ => none

/-- The fancy-index assignment `a[idx] = vals` after broadcasting, performed
write by write in order (the last write to a duplicated index wins):
NumPy's `IndexError` aborts the statement. -/
def scatter_assign : List Bool → List (Int × Bool) → Except Err (List Bool)
  | a, [] => Except.ok a
  | a, (i, v) :: rest =>
    match npIndex a.length i with
    | some j => scatter_assign (a.set j v) rest
    | none => Except.error Err.IndexError

/-- `Ag3.is_accessible(contig, site_mask, site_filters)`: an all-false vector
of the contig sequence length, then the single statement
`is_accessible[pos - 1] = filter_pass` over the evaluated unmasked positions
and the evaluated filter array. -/
def is_accessible (st : Storage) (contig site_mask sfa : String) :
    Except Err (List Bool) :=
  let seq_length := (genome_sequence st contig).length
  let out := List.replicate seq_length false
  let pos := snp_sites_field_POS st contig
  let fp := site_filters st contig site_mask sfa
  match broadcast_to fp pos.length with
  | none => Except.error Err.ShapeError
  | some fpb => scatter_assign out ((pos.map (fun p => p - 1)).zip fpb)

/-- An opened store handle or parsed table, identified by the serial number
of the physical open that produced it: two handles are the identical object
exactly when their ids agree. -/
structure Handle where
  id : Nat
  deriving DecidableEq, Repr

/-- The cache dictionaries set up in `Ag3.__init__` (the ones keyed by a
dictionary key), as association lists, plus the count of physical opens
performed so far (also the source of fresh handle ids). -/
structure Ag3State where
  cache_sample_sets : List (String × Handle)
  cache_general_metadata : List (String × Handle)
  cache_species_calls : List ((String × String × String) × Handle)
  cache_site_filters : List ((String × String) × Handle)
  cache_snp_genotypes : List (String × Handle)
  n_opens : Nat
  deriving DecidableEq, Repr

/-- The environment of the stateful layer: the discovered releases, the
manifest contents, and — per resource — whether its physical open/read
succeeds (a `false` models a propagated filesystem/store exception). -/
structure World where
  releases : List String
  manifest : String → List String
  ok_manifest : String → Bool
  ok_general : String → Bool
  ok_species : String → String → String → Bool
  ok_site_filters : String → String → Bool
  ok_genotypes : String → Bool

/-- Dictionary lookup, `cache[key]` (`KeyError` becomes `none`). -/
def alookup {κ : Type} [DecidableEq κ] : List (κ × Handle) → κ → Option Handle
  | [], _ => none
  | (k2, v) :: rest, k => if k = k2 then some v else alookup rest k

/-- Stateful `Ag3.sample_sets(release)`: the release check comes first; then
`try: return self._cache_sample_sets[release]`; on `KeyError` the manifest is
physically read and the result stored under the key before returning. -/
def sample_setsM (w : World) (release : String) (s : Ag3State) :
    Except Err (Handle × List String) × Ag3State :=
  if release ∈ w.releases then
    match alookup s.cache_sample_sets release with
    | some h => (Except.ok (h, w.manifest release), s)
    | none =>
      if w.ok_manifest release then
        let h : Handle := { id := s.n_opens }
        (Except.ok (h, w.manifest release),
         { s with cache_sample_sets := (release, h) :: s.cache_sample_sets,
                  n_opens := s.n_opens + 1 })
      else (Except.error Err.StorageError, s)
  else (Except.error Err.NotFoundError, s)

/-- Stateful `Ag3._lookup_release`: scan the releases in order, calling
`self.sample_sets(release)` (which may populate the manifest cache) and
testing membership of the sample set in the manifest. -/
def lookup_releaseM (w : World) (sample_set : String) :
    List String → Ag3State → Except Err String × Ag3State
  | [], s => (Except.error Err.NotFoundError, s)
  | r :: rest, s =>
    match sample_setsM w r s with
    | (Except.error e, s1) => (Except.error e, s1)
    | (Except.ok (_, man), s1) =>
      if man.contains sample_set then (Except.ok r, s1)
      else lookup_releaseM w sample_set rest s1

/-- Stateful `Ag3._read_general_metadata(sample_set)`: cache check first; on
a miss, release lookup, then the physical table read, and only a successful
read is stored under the key. -/
def read_general_metadataM (w : World) (sample_set : String) (s : Ag3State) :
    Except Err Handle × Ag3State :=
  match alookup s.cache_general_metadata sample_set with
  | some h => (Except.ok h, s)
  | none =>
    match lookup_releaseM w sample_set w.releases s with
    | (Except.error e, s1) => (Except.error e, s1)
    | (Except.ok _, s1) =>
      if w.ok_general sample_set then
        let h : Handle := { id := s1.n_opens }
        (Except.ok h,
         { s1 with
            cache_general_metadata :=
              (sample_set, h) :: s1.cache_general_metadata,
            n_opens := s1.n_opens + 1 })
      else (Except.error Err.StorageError, s1)

/-- Stateful `Ag3._read_species_calls(sample_set, analysis, method)`: cache
check on the key triple first; on a miss, release lookup, then the physical
table read, stored only on success. -/
def read_species_callsM (w : World) (sample_set analysis method : String)
    (s : Ag3State) : Except Err Handle × Ag3State :=
  match alookup s.cache_species_calls (sample_set, analysis, method) with
  | some h => (Except.ok h, s)
  | none =>
    match lookup_releaseM w sample_set w.releases s with
    | (Except.error e, s1) => (Except.error e, s1)
    | (Except.ok _, s1) =>
      if w.ok_species sample_set analysis method then
        let h : Handle := { id := s1.n_opens }
        (Except.ok h,
         { s1 with
            cache_species_calls :=
              ((sample_set, analysis, method), h) :: s1.cache_species_calls,
            n_opens := s1.n_opens + 1 })
      else (Except.error Err.StorageError, s1)

/-- Stateful `Ag3._open_site_filters(mask, analysis)`: cache check on the key
pair first; the path is under the literal release "v3", so there is no
release lookup; a successful open is stored under the key. -/
def open_site_filtersM (w : World) (mask analysis : String) (s : Ag3State) :
    Except Err Handle × Ag3State :=
  match alookup s.cache_site_filters (mask, analysis) with
  | some h => (Except.ok h, s)
  | none =>
    if w.ok_site_filters mask analysis then
      let h : Handle := { id := s.n_opens }
      (Except.ok h,
       { s with cache_site_filters := ((mask, analysis), h) :: s.cache_site_filters,
                n_opens := s.n_opens + 1 })
    else (Except.error Err.StorageError, s)

/-- Stateful `Ag3._open_snp_genotypes(sample_set)`: cache check first; on a
miss, release lookup, then the physical store open, stored only on
success. -/
def open_snp_genotypesM (w : World) (sample_set : String) (s : Ag3State) :
    Except Err Handle × Ag3State :=
  match alookup s.cache_snp_genotypes sample_set with
  | some h => (Except.ok h, s)
  | none =>
    match lookup_releaseM w sample_set w.releases s with
    | (Except.error e, s1) => (Except.error e, s1)
    | (Except.ok _, s1) =>
      if w.ok_genotypes sample_set then
        let h : Handle := { id := s1.n_opens }
        (Except.ok h,
         { s1 with
            cache_snp_genotypes := (sample_set, h) :: s1.cache_snp_genotypes,
            n_opens := s1.n_opens + 1 })
      else (Except.error Err.StorageError, s1)

/-! ### Helper lemmas -/

/-- A string that the resolver treats as a single sample-set identifier of
this store: not the "v3_wild" sentinel, not a release alias, and present in
some release's manifest. -/
def is_plain_sample_set (st : Storage) (s : String) : Prop :=
  s ≠ "v3_wild" ∧ str_startsWith s "v3" = false ∧
    exceptOk (lookup_release st s) = true

instance (st : Storage) (s : String) : Decidable (is_plain_sample_set st s) := by
  unfold is_plain_sample_set
  infer_instance

theorem exceptOk_iff {α : Type} (e : Except Err α) :
    exceptOk e = true ↔ ∃ a, e = Except.ok a := by
  cases e <;> simp [exceptOk]

theorem prep_plain (st : Storage) (s : String) (h : is_plain_sample_set st s) :
    prep_sample_sets_arg st (SampleSetsArg.str s) =
      Except.ok (SampleSetsArg.str s) := by
  obtain ⟨h1, h2, _⟩ := h
  simp [prep_sample_sets_arg, h1, h2]

theorem mapExcept_ok_of_forall {α β : Type} (f : α → Except Err β) (g : α → β)
    (l : List α) (h : ∀ c ∈ l, f c = Except.ok (g c)) :
    mapExcept f l = Except.ok (l.map g) := by
  induction l with
  | nil => simp [mapExcept]
  | cons x xs ih =>
    have hx := h x (by simp)
    have hxs := ih (fun c hc => h c (by simp [hc]))
    simp [mapExcept, hx, hxs]

theorem mapExcept_ok_mem {α β : Type} (f : α → Except Err β) (l : List α)
    (ys : List β) (h : mapExcept f l = Except.ok ys) :
    ∀ y ∈ ys, ∃ x ∈ l, f x = Except.ok y := by
  induction l generalizing ys with
  | nil =>
    simp [mapExcept] at h
    subst h
    simp
  | cons x xs ih =>
    simp only [mapExcept] at h
    cases hfx : f x with
    | error e => rw [hfx] at h; exact absurd h (by simp)
    | ok y0 =>
      rw [hfx] at h
      cases hrest : mapExcept f xs with
      | error e => rw [hrest] at h; exact absurd h (by simp)
      | ok ys0 =>
        rw [hrest] at h
        simp only [Except.ok.injEq] at h
        subst h
        intro y hy
        rcases List.mem_cons.mp hy with rfl | hy'
        · exact ⟨x, by simp, hfx⟩
        · obtain ⟨x', hx', hfx'⟩ := ih ys0 hrest y hy'
          exact ⟨x', by simp [hx'], hfx'⟩

theorem mem_concatTables {α : Type} (ts : List (List α)) (a : α) :
    a ∈ concatTables ts ↔ ∃ t ∈ ts, a ∈ t := by
  induction ts with
  | nil => simp [concatTables]
  | cons t ts ih => simp [concatTables, ih]

theorem compressBy_nil_right {α : Type} (m : List Bool) :
    compressBy (α := α) m [] = [] := by
  cases m with
  | nil => rfl
  | cons b bs => cases b <;> rfl

theorem compressBy_length {α : Type} (fp : List Bool) (l : List α)
    (h : fp.length = l.length) :
    (compressBy fp l).length = fp.count true := by
  induction fp generalizing l with
  | nil => simp [compressBy]
  | cons b bs ih =>
    cases l with
    | nil => simp at h
    | cons x xs =>
      simp only [List.length_cons, Nat.succ.injEq] at h
      cases b with
      | true => simp [compressBy, ih xs h, List.count_cons]
      | false => simp [compressBy, ih xs h, List.count_cons]

/-! ### C8 — release validation in `sample_sets` -/

/-- C8: for every release identifier in the set discovered at initialization,
`sample_sets` succeeds and returns that release's manifest; for any other
string, it fails with `NotFoundError`. -/
theorem C8_sample_sets_validates_release (st : Storage) (release : String) :
    (release ∈ st.releases →
      sample_sets st release = Except.ok (st.manifest release)) ∧
    (release ∉ st.releases →
      sample_sets st release = Except.error Err.NotFoundError) := by
  constructor <;> intro h <;> simp [sample_sets, h]

/-- A concrete store exercising both branches of C8. -/
def stC8 : Storage where
  releases := ["v3"]
  manifest := fun r => if r = "v3" then ["AG1000G-AO", "AG1000G-X"] else []
  general_metadata := fun _ => []
  species_calls_data := fun _ _ _ => []
  filter_pass := fun _ _ _ => []
  pos_data := fun _ => []
  ref_data := fun _ => []
  alt_data := fun _ => []
  calldata := fun _ _ _ => []
  genome := fun _ => []

theorem C8_sample_sets_validates_release_witness :
    sample_sets stC8 "v3" = Except.ok (stC8.manifest "v3") ∧
    sample_sets stC8 "v4" = Except.error Err.NotFoundError :=
  ⟨(C8_sample_sets_validates_release stC8 "v3").1 (by decide),
   (C8_sample_sets_validates_release stC8 "v4").2 (by decide)⟩

/-! ### C5 — `snp_sites` with a site mask compresses POS/REF/ALT alike -/

/-- C5: calling `snp_sites` without a field and with a site mask returns
POS, REF and ALT each compressed along the position axis by the same
evaluated filter array, so each returned array has length equal to the count
of `true` values in that mask's filter array (hence all three lengths are
equal).  The hypotheses are the data invariant that the filter array is
aligned 1:1 with the site arrays. -/
theorem C5_snp_sites_masked_lengths (st : Storage) (contig m sfa : String)
    (h1 : (site_filters st contig m sfa).length =
      (snp_sites_field_POS st contig).length)
    (h2 : (site_filters st contig m sfa).length =
      (snp_sites_field_REF st contig).length)
    (h3 : (site_filters st contig m sfa).length =
      (snp_sites_field_ALT st contig).length) :
    snp_sites_all st contig (some m) sfa =
      (compressBy (site_filters st contig m sfa) (snp_sites_field_POS st contig),
       compressBy (site_filters st contig m sfa) (snp_sites_field_REF st contig),
       compressBy (site_filters st contig m sfa) (snp_sites_field_ALT st contig)) ∧
    (snp_sites_all st contig (some m) sfa).1.length =
      (site_filters st contig m sfa).count true ∧
    (snp_sites_all st contig (some m) sfa).2.1.length =
      (site_filters st contig m sfa).count true ∧
    (snp_sites_all st contig (some m) sfa).2.2.length =
      (site_filters st contig m sfa).count true := by
  refine ⟨rfl, ?_, ?_, ?_⟩
  · exact compressBy_length _ _ h1
  · exact compressBy_length _ _ h2
  · exact compressBy_length _ _ h3

/-- A concrete store for the C5 witness: contig "3R" with three sites, of
which two pass the "gamb_colu" filter. -/
def stC5 : Storage where
  releases := ["v3"]
  manifest := fun _ => []
  general_metadata := fun _ => []
  species_calls_data := fun _ _ _ => []
  filter_pass := fun _ m _ => if m = "gamb_colu" then [true, false, true] else []
  pos_data := fun _ => [101, 105, 110]
  ref_data := fun _ => ["A", "C", "G"]
  alt_data := fun _ => [["C", "T"], ["A"], ["T"]]
  calldata := fun _ _ _ => []
  genome := fun _ => []

theorem C5_snp_sites_masked_lengths_witness :
    snp_sites_all stC5 "3R" (some "gamb_colu") "dt_20200416" =
      (compressBy (site_filters stC5 "3R" "gamb_colu" "dt_20200416")
        (snp_sites_field_POS stC5 "3R"),
       compressBy (site_filters stC5 "3R" "gamb_colu" "dt_20200416")
        (snp_sites_field_REF stC5 "3R"),
       compressBy (site_filters stC5 "3R" "gamb_colu" "dt_20200416")
        (snp_sites_field_ALT stC5 "3R")) ∧
    (snp_sites_all stC5 "3R" (some "gamb_colu") "dt_20200416").1.length =
      (site_filters stC5 "3R" "gamb_colu" "dt_20200416").count true ∧
    (snp_sites_all stC5 "3R" (some "gamb_colu") "dt_20200416").2.1.length =
      (site_filters stC5 "3R" "gamb_colu" "dt_20200416").count true ∧
    (snp_sites_all stC5 "3R" (some "gamb_colu") "dt_20200416").2.2.length =
      (site_filters stC5 "3R" "gamb_colu" "dt_20200416").count true :=
  C5_snp_sites_masked_lengths stC5 "3R" "gamb_colu" "dt_20200416"
    (by decide) (by decide) (by decide)

/-! ### C3 — the species derivation rule -/

/-- The per-row species rule exactly as the claim states it: "arabiensis"
wins regardless of the second column; "intermediate" gives the
arabiensis/gambiae intermediate; "gamb_colu" dispatches on the second
column; anything else leaves the species missing. -/
def species_rule (sga sgc : Option String) : Option String :=
  if sga = some "arabiensis" then some "arabiensis"
  else if sga = some "intermediate" then some "intermediate_arabiensis_gambiae"
  else if sga = some "gamb_colu" then
    if sgc = some "gambiae" then some "gambiae"
    else if sgc = some "coluzzii" then some "coluzzii"
    else if sgc = some "intermediate" then some "intermediate_gambiae_coluzzii"
    else none
  else none

theorem mem_derive_species (rows : List SpeciesRaw) (r : SpeciesRow)
    (hr : r ∈ derive_species rows) :
    r.species =
      species_rule r.species_gambcolu_arabiensis r.species_gambiae_coluzzii := by
  simp only [derive_species, species_set_where, List.map_map] at hr
  obtain ⟨raw, _, rfl⟩ := List.mem_map.mp hr
  simp only [Function.comp_apply]
  by_cases h1 : raw.species_gambcolu_arabiensis = some "arabiensis"
  · simp [h1, species_rule]
  · by_cases h2 : raw.species_gambcolu_arabiensis = some "intermediate"
    · simp [h1, h2, species_rule]
    · by_cases h3 : raw.species_gambcolu_arabiensis = some "gamb_colu"
      · by_cases h4 : raw.species_gambiae_coluzzii = some "gambiae"
        · simp [h1, h2, h3, h4, species_rule]
        · by_cases h5 : raw.species_gambiae_coluzzii = some "coluzzii"
          · simp [h1, h2, h3, h4, h5, species_rule]
          · by_cases h6 : raw.species_gambiae_coluzzii = some "intermediate"
            · simp [h1, h2, h3, h4, h5, h6, species_rule]
            · simp [h1, h2, h3, h4, h5, h6, species_rule]
      · simp [h1, h2, h3, species_rule]

/-- C3: in every species-call table returned by `species_calls`, the derived
`species` value of each row is determined from the two raw columns by the
claim's case rule, and unmatched combinations leave it missing. -/
theorem C3_species_derivation (fuel : Nat) (st : Storage) (arg : SampleSetsArg)
    (analysis method : String) (out : List SpeciesRow)
    (h : species_calls fuel st arg analysis method = Except.ok out) :
    ∀ r ∈ out,
      r.species =
        species_rule r.species_gambcolu_arabiensis r.species_gambiae_coluzzii := by
  induction fuel generalizing arg out with
  | zero => exact absurd h (by simp [species_calls])
  | succ n ih =>
    simp only [species_calls] at h
    cases hprep : prep_sample_sets_arg st arg with
    | error e => rw [hprep] at h; exact absurd h (by simp)
    | ok resolved =>
      rw [hprep] at h
      cases resolved with
      | str s =>
        simp only [read_species_calls] at h
        cases hlr : lookup_release st s with
        | error e => rw [hlr] at h; exact absurd h (by simp)
        | ok rel =>
          rw [hlr] at h
          simp only [Except.ok.injEq] at h
          subst h
          intro r hr
          exact mem_derive_species _ r hr
      | list l =>
        simp only at h
        cases hmap : mapExcept
            (fun c => species_calls n st (SampleSetsArg.str c) analysis method) l with
        | error e => rw [hmap] at h; exact absurd h (by simp)
        | ok dfs =>
          rw [hmap] at h
          simp only [Except.ok.injEq] at h
          subst h
          intro r hr
          obtain ⟨df, hdf, hrdf⟩ := (mem_concatTables dfs r).mp hr
          obtain ⟨c, _, hc⟩ := mapExcept_ok_mem _ l dfs hmap df hdf
          exact ih (SampleSetsArg.str c) df hc r hrdf

/-- A concrete store for the C3 witness: one sample set with four rows
covering an "arabiensis" row, a "gamb_colu"/"coluzzii" row, an unmatched
combination and a fully missing row. -/
def stC3 : Storage where
  releases := ["v3"]
  manifest := fun r => if r = "v3" then ["SS1"] else []
  general_metadata := fun _ => []
  species_calls_data := fun s _ _ =>
    if s = "SS1" then
      [{ sample_id := "a", species_gambcolu_arabiensis := some "arabiensis",
         species_gambiae_coluzzii := some "gambiae", payload := "" },
       { sample_id := "b", species_gambcolu_arabiensis := some "gamb_colu",
         species_gambiae_coluzzii := some "coluzzii", payload := "" },
       { sample_id := "c", species_gambcolu_arabiensis := some "odd",
         species_gambiae_coluzzii := some "gambiae", payload := "" },
       { sample_id := "d", species_gambcolu_arabiensis := none,
         species_gambiae_coluzzii := none, payload := "" }]
    else []
  filter_pass := fun _ _ _ => []
  pos_data := fun _ => []
  ref_data := fun _ => []
  alt_data := fun _ => []
  calldata := fun _ _ _ => []
  genome := fun _ => []

/-- The derived row of sample "b" in `stC3`'s species-call table. -/
def rC3 : SpeciesRow :=
  { sample_id := "b", species_gambcolu_arabiensis := some "gamb_colu",
    species_gambiae_coluzzii := some "coluzzii", payload := "",
    species := some "coluzzii" }

theorem C3_species_derivation_witness :
    rC3.species = species_rule rC3.species_gambcolu_arabiensis
      rC3.species_gambiae_coluzzii :=
  C3_species_derivation 1 stC3 (SampleSetsArg.str "SS1") "20200422" "aim"
    (derive_species (stC3.species_calls_data "SS1" "20200422" "aim"))
    (by decide) rC3 (by decide)

/-! ### C1, C9 — `snp_genotypes` concatenation and masking -/

theorem snp_genotypes_single_none (n : Nat) (st : Storage)
    (contig s field sfa : String) (h : is_plain_sample_set st s) :
    snp_genotypes (n+1) st contig (SampleSetsArg.str s) field none sfa =
      Except.ok (st.calldata contig s field) := by
  obtain ⟨rel, hrel⟩ := (exceptOk_iff _).mp h.2.2
  simp only [snp_genotypes, prep_plain st s h, hrel]

theorem snp_genotypes_single_some (n : Nat) (st : Storage)
    (contig s field m sfa : String) (h : is_plain_sample_set st s) :
    snp_genotypes (n+1) st contig (SampleSetsArg.str s) field (some m) sfa =
      Except.ok (compressBy (site_filters st contig m sfa)
        (st.calldata contig s field)) := by
  obtain ⟨rel, hrel⟩ := (exceptOk_iff _).mp h.2.2
  simp only [snp_genotypes, prep_plain st s h, hrel]

theorem snp_genotypes_list_eval (n : Nat) (st : Storage)
    (contig field sfa : String) (mask : Option String) (l : List String)
    (h : ∀ c ∈ l, is_plain_sample_set st c) :
    snp_genotypes (n+2) st contig (SampleSetsArg.list l) field mask sfa =
      Except.ok (match mask with
        | none => concat_axis1 (l.map (fun c => st.calldata contig c field))
        | some m => compressBy (site_filters st contig m sfa)
            (concat_axis1 (l.map (fun c => st.calldata contig c field)))) := by
  have hmap : mapExcept
      (fun c => snp_genotypes (n+1) st contig (SampleSetsArg.str c)
        field none "dt_20200416") l =
      Except.ok (l.map (fun c => st.calldata contig c field)) :=
    mapExcept_ok_of_forall _ _ l
      (fun c hc => snp_genotypes_single_none n st contig c field _ (h c hc))
  have hprep : prep_sample_sets_arg st (SampleSetsArg.list l) =
      Except.ok (SampleSetsArg.list l) := rfl
  rw [show n + 2 = (n + 1) + 1 from rfl, snp_genotypes.eq_2, hprep]
  simp only [hmap]
  cases mask <;> rfl

theorem zipWith_append_row_length {α : Type} (c1 c2 : Nat) :
    ∀ (d1 d2 : List (List α)), (∀ r ∈ d1, r.length = c1) →
      (∀ r ∈ d2, r.length = c2) →
      ∀ r ∈ List.zipWith (fun a b => a ++ b) d1 d2, r.length = c1 + c2 := by
  intro d1
  induction d1 with
  | nil => simp
  | cons x xs ih =>
    intro d2 h1 h2
    cases d2 with
    | nil => simp
    | cons y ys =>
      simp only [List.zipWith_cons_cons]
      intro r hr
      rcases List.mem_cons.mp hr with rfl | hr'
      · simp [h1 x (by simp), h2 y (by simp)]
      · exact ih ys (fun r h => h1 r (by simp [h]))
          (fun r h => h2 r (by simp [h])) r hr'

theorem zipWith_append_take {α : Type} (c1 : Nat) :
    ∀ (d1 d2 : List (List α)), (∀ r ∈ d1, r.length = c1) →
      d1.length ≤ d2.length →
      (List.zipWith (fun a b => a ++ b) d1 d2).map (fun r => r.take c1) = d1 := by
  intro d1
  induction d1 with
  | nil => simp
  | cons x xs ih =>
    intro d2 h1 hlen
    cases d2 with
    | nil => simp at hlen
    | cons y ys =>
      simp only [List.zipWith_cons_cons, List.map_cons]
      have hx : x.length = c1 := h1 x (by simp)
      have htail := ih ys (fun r h => h1 r (by simp [h])) (by simpa using hlen)
      rw [htail, ← hx, List.take_left]

/-- C1: for every contig, field and pair of plain sample-set identifiers,
`snp_genotypes` on the two-element list concatenates along the sample axis in
argument order with no reordering or deduplication: the result's sample-axis
length is the sum of the two sample-axis lengths, and its first sample-axis
block equals the first sample set's array exactly.  The shape hypotheses are
the data invariant that both arrays share the position axis and are
rectangular. -/
theorem C1_snp_genotypes_concat (n : Nat) (st : Storage)
    (contig field sfa S1 S2 : String) (c1 c2 : Nat)
    (h1 : is_plain_sample_set st S1) (h2 : is_plain_sample_set st S2)
    (hrows : (st.calldata contig S1 field).length =
      (st.calldata contig S2 field).length)
    (hc1 : ∀ r ∈ st.calldata contig S1 field, r.length = c1)
    (hc2 : ∀ r ∈ st.calldata contig S2 field, r.length = c2) :
    ∃ d, snp_genotypes (n+2) st contig (SampleSetsArg.list [S1, S2])
        field none sfa = Except.ok d ∧
      snp_genotypes (n+2) st contig (SampleSetsArg.str S1) field none sfa =
        Except.ok (st.calldata contig S1 field) ∧
      snp_genotypes (n+2) st contig (SampleSetsArg.str S2) field none sfa =
        Except.ok (st.calldata contig S2 field) ∧
      d = List.zipWith (fun a b => a ++ b) (st.calldata contig S1 field)
        (st.calldata contig S2 field) ∧
      (∀ r ∈ d, r.length = c1 + c2) ∧
      d.map (fun r => r.take c1) = st.calldata contig S1 field := by
  refine ⟨List.zipWith (fun a b => a ++ b) (st.calldata contig S1 field)
      (st.calldata contig S2 field), ?_, ?_, ?_, rfl, ?_, ?_⟩
  · have := snp_genotypes_list_eval n st contig field sfa none [S1, S2]
      (by intro c hc
          rcases List.mem_cons.mp hc with rfl | hc'
          · exact h1
          · rcases List.mem_cons.mp hc' with rfl | h'
            · exact h2
            · simp at h')
    simpa [concat_axis1] using this
  · exact snp_genotypes_single_none (n+1) st contig S1 field sfa h1
  · exact snp_genotypes_single_none (n+1) st contig S2 field sfa h2
  · exact zipWith_append_row_length c1 c2 _ _ hc1 hc2
  · exact zipWith_append_take c1 _ _ hc1 (le_of_eq hrows)

/-- A concrete store for the C1 and C9 witnesses: two sample sets on contig
"2R" sharing two site positions, with two and one samples respectively. -/
def stC1 : Storage where
  releases := ["v3"]
  manifest := fun r => if r = "v3" then ["S1", "S2"] else []
  general_metadata := fun _ => []
  species_calls_data := fun _ _ _ => []
  filter_pass := fun _ m _ => if m = "gamb_colu" then [true, false] else []
  pos_data := fun _ => []
  ref_data := fun _ => []
  alt_data := fun _ => []
  calldata := fun _ s _ =>
    if s = "S1" then [[1, 2], [3, 4]]
    else if s = "S2" then [[5], [6]]
    else []
  genome := fun _ => []

theorem C1_snp_genotypes_concat_witness :
    ∃ d, snp_genotypes 2 stC1 "2R" (SampleSetsArg.list ["S1", "S2"])
        "GT" none "dt_20200416" = Except.ok d ∧
      snp_genotypes 2 stC1 "2R" (SampleSetsArg.str "S1") "GT" none "dt_20200416" =
        Except.ok (stC1.calldata "2R" "S1" "GT") ∧
      snp_genotypes 2 stC1 "2R" (SampleSetsArg.str "S2") "GT" none "dt_20200416" =
        Except.ok (stC1.calldata "2R" "S2" "GT") ∧
      d = List.zipWith (fun a b => a ++ b) (stC1.calldata "2R" "S1" "GT")
        (stC1.calldata "2R" "S2" "GT") ∧
      (∀ r ∈ d, r.length = 2 + 1) ∧
      d.map (fun r => r.take 2) = stC1.calldata "2R" "S1" "GT" :=
  C1_snp_genotypes_concat 0 stC1 "2R" "GT" "dt_20200416" "S1" "S2" 2 1
    (by decide) (by decide) (by decide) (by decide) (by decide)

theorem compressBy_zipWith_append {α : Type} (fp : List Bool) :
    ∀ (a b : List (List α)),
      compressBy fp (List.zipWith (fun x y => x ++ y) a b) =
        List.zipWith (fun x y => x ++ y) (compressBy fp a) (compressBy fp b) := by
  induction fp with
  | nil => simp [compressBy]
  | cons t m ih =>
    intro a b
    cases a with
    | nil => simp [compressBy]
    | cons x xs =>
      cases b with
      | nil => simp [compressBy_nil_right]
      | cons y ys => cases t <;> simp [compressBy, ih]

theorem compressBy_concat_axis1 {α : Type} (fp : List Bool)
    (ds : List (List (List α))) :
    compressBy fp (concat_axis1 ds) = concat_axis1 (ds.map (compressBy fp)) := by
  induction ds with
  | nil => simp [concat_axis1, compressBy_nil_right]
  | cons d rest ih =>
    cases rest with
    | nil => simp [concat_axis1]
    | cons d2 rest2 =>
      simp only [concat_axis1, List.map_cons]
      rw [compressBy_zipWith_append, ih]
      simp [concat_axis1]

/-- C9: over a list of plain sample sets, `snp_genotypes` applies the boolean
compress exactly once, to the sample-axis concatenation of the per-sample-set
arrays fetched with no mask (first conjunct); since the mask selects along
the position axis and the concatenation runs along the sample axis, this
equals concatenating the individually masked per-sample-set results (second
and third conjuncts): masking and concatenation commute. -/
theorem C9_mask_concat_commute (n : Nat) (st : Storage)
    (contig field m sfa : String) (l : List String)
    (h : ∀ c ∈ l, is_plain_sample_set st c) :
    snp_genotypes (n+2) st contig (SampleSetsArg.list l) field (some m) sfa =
      Except.ok (compressBy (site_filters st contig m sfa)
        (concat_axis1 (l.map (fun c => st.calldata contig c field)))) ∧
    mapExcept (fun c => snp_genotypes (n+2) st contig (SampleSetsArg.str c)
        field (some m) sfa) l =
      Except.ok (l.map (fun c => compressBy (site_filters st contig m sfa)
        (st.calldata contig c field))) ∧
    compressBy (site_filters st contig m sfa)
        (concat_axis1 (l.map (fun c => st.calldata contig c field))) =
      concat_axis1 (l.map (fun c => compressBy (site_filters st contig m sfa)
        (st.calldata contig c field))) := by
  refine ⟨?_, ?_, ?_⟩
  · exact snp_genotypes_list_eval n st contig field sfa (some m) l h
  · exact mapExcept_ok_of_forall _ _ l
      (fun c hc => snp_genotypes_single_some (n+1) st contig c field m sfa (h c hc))
  · rw [compressBy_concat_axis1, List.map_map]
    rfl

theorem C9_mask_concat_commute_witness :
    snp_genotypes 2 stC1 "2R" (SampleSetsArg.list ["S1", "S2"])
        "GT" (some "gamb_colu") "dt_20200416" =
      Except.ok (compressBy (site_filters stC1 "2R" "gamb_colu" "dt_20200416")
        (concat_axis1 (["S1", "S2"].map (fun c => stC1.calldata "2R" c "GT")))) ∧
    mapExcept (fun c => snp_genotypes 2 stC1 "2R" (SampleSetsArg.str c)
        "GT" (some "gamb_colu") "dt_20200416") ["S1", "S2"] =
      Except.ok (["S1", "S2"].map
        (fun c => compressBy (site_filters stC1 "2R" "gamb_colu" "dt_20200416")
          (stC1.calldata "2R" c "GT"))) ∧
    compressBy (site_filters stC1 "2R" "gamb_colu" "dt_20200416")
        (concat_axis1 (["S1", "S2"].map (fun c => stC1.calldata "2R" c "GT"))) =
      concat_axis1 (["S1", "S2"].map
        (fun c => compressBy (site_filters stC1 "2R" "gamb_colu" "dt_20200416")
          (stC1.calldata "2R" c "GT"))) :=
  C9_mask_concat_commute 0 stC1 "2R" "GT" "gamb_colu" "dt_20200416"
    ["S1", "S2"] (by decide)

/-! ### C2 — `sample_metadata` assembly -/

/-- C2: for a single plain sample-set identifier, `sample_metadata` returns
the general metadata table (first conjunct); with a species-call
specification it returns the inner join of general metadata and species
calls on `sample_id` — a row appears exactly for a matching pair, so rows
without a partner on either side are dropped (second conjunct); for a list
it concatenates the per-sample-set results in resolved argument order, the
list positions being the contiguously re-numbered row index (third
conjunct). -/
theorem C2_sample_metadata_assembly (n : Nat) (st : Storage)
    (analysis method : String) :
    (∀ s gm, is_plain_sample_set st s →
      read_general_metadata st s = Except.ok gm →
      sample_metadata (n+1) st (SampleSetsArg.str s) none =
        Except.ok (gm.map (fun g => { g := g, sp := none }))) ∧
    (∀ s gm sdf, is_plain_sample_set st s →
      read_general_metadata st s = Except.ok gm →
      read_species_calls st s analysis method = Except.ok sdf →
      sample_metadata (n+1) st (SampleSetsArg.str s)
          (some (analysis, method)) =
        Except.ok (merge_on_sample_id gm sdf) ∧
      (∀ row, row ∈ merge_on_sample_id gm sdf ↔
        ∃ g ∈ gm, ∃ sp ∈ sdf, sp.sample_id = g.sample_id ∧
          row = { g := g, sp := some sp })) ∧
    (∀ (spc : Option (String × String)) (l : List String)
        (parts : List (List SampleRow)),
      (∀ c ∈ l, is_plain_sample_set st c) →
      mapExcept (fun c => sample_metadata (n+1) st (SampleSetsArg.str c) spc) l =
        Except.ok parts →
      sample_metadata (n+2) st (SampleSetsArg.list l) spc =
        Except.ok (concatTables parts)) := by
  refine ⟨?_, ?_, ?_⟩
  · intro s gm hp hgm
    rw [sample_metadata.eq_2, prep_plain st s hp]
    simp only [hgm]
  · intro s gm sdf hp hgm hsdf
    constructor
    · rw [sample_metadata.eq_2, prep_plain st s hp]
      simp only [hgm, hsdf]
    · intro row
      constructor
      · intro hmem
        obtain ⟨t, ht, hrt⟩ :=
          (mem_concatTables _ row).mp (by simpa [merge_on_sample_id] using hmem)
        obtain ⟨g, hg, rfl⟩ := List.mem_map.mp ht
        obtain ⟨sp, hsp', rfl⟩ := List.mem_map.mp hrt
        obtain ⟨hsp, hid⟩ := List.mem_filter.mp hsp'
        exact ⟨g, hg, sp, hsp, eq_of_beq hid, rfl⟩
      · rintro ⟨g, hg, sp, hsp, hid, rfl⟩
        show _ ∈ concatTables _
        refine (mem_concatTables _ _).mpr
          ⟨_, List.mem_map.mpr ⟨g, hg, rfl⟩, List.mem_map.mpr
            ⟨sp, List.mem_filter.mpr ⟨hsp, beq_iff_eq.mpr hid⟩, rfl⟩⟩
  · intro spc l parts hpl hparts
    have hprep : prep_sample_sets_arg st (SampleSetsArg.list l) =
        Except.ok (SampleSetsArg.list l) := rfl
    rw [show n + 2 = (n + 1) + 1 from rfl, sample_metadata.eq_2, hprep]
    simp only [hparts]

/-- A concrete store for the C2 witness: one sample set whose general
metadata has sample ids "a" and "b" while the species-call table has "b" and
"c", so the inner join keeps exactly the "b" pair. -/
def stC2 : Storage where
  releases := ["v3"]
  manifest := fun r => if r = "v3" then ["SS1"] else []
  general_metadata := fun s =>
    if s = "SS1" then
      [{ sample_id := "a", payload := "pa" },
       { sample_id := "b", payload := "pb" }]
    else []
  species_calls_data := fun s _ _ =>
    if s = "SS1" then
      [{ sample_id := "b", species_gambcolu_arabiensis := some "gamb_colu",
         species_gambiae_coluzzii := some "gambiae", payload := "q" },
       { sample_id := "c", species_gambcolu_arabiensis := some "arabiensis",
         species_gambiae_coluzzii := none, payload := "r" }]
    else []
  filter_pass := fun _ _ _ => []
  pos_data := fun _ => []
  ref_data := fun _ => []
  alt_data := fun _ => []
  calldata := fun _ _ _ => []
  genome := fun _ => []

/-- The annotated general metadata table of `stC2`'s sample set. -/
def gmC2 : List GeneralRow :=
  [{ sample_id := "a", payload := "pa", sample_set := "SS1", release := "v3" },
   { sample_id := "b", payload := "pb", sample_set := "SS1", release := "v3" }]

/-- The species-call table of `stC2`'s sample set with the derived column. -/
def sdfC2 : List SpeciesRow :=
  derive_species (stC2.species_calls_data "SS1" "20200422" "aim")

theorem C2_sample_metadata_assembly_witness :
    sample_metadata 1 stC2 (SampleSetsArg.str "SS1") none =
      Except.ok (gmC2.map (fun g => { g := g, sp := none })) ∧
    (sample_metadata 1 stC2 (SampleSetsArg.str "SS1") (some ("20200422", "aim")) =
        Except.ok (merge_on_sample_id gmC2 sdfC2) ∧
      (∀ row, row ∈ merge_on_sample_id gmC2 sdfC2 ↔
        ∃ g ∈ gmC2, ∃ sp ∈ sdfC2, sp.sample_id = g.sample_id ∧
          row = { g := g, sp := some sp })) ∧
    sample_metadata 2 stC2 (SampleSetsArg.list ["SS1"]) none =
      Except.ok (concatTables [gmC2.map (fun g => { g := g, sp := none })]) :=
  ⟨(C2_sample_metadata_assembly 0 stC2 "20200422" "aim").1 "SS1" gmC2
      (by decide) (by decide),
   (C2_sample_metadata_assembly 0 stC2 "20200422" "aim").2.1 "SS1" gmC2 sdfC2
      (by decide) (by decide) (by decide),
   (C2_sample_metadata_assembly 0 stC2 "20200422" "aim").2.2 none ["SS1"]
      [gmC2.map (fun g => { g := g, sp := none })] (by decide) (by decide)⟩

/-! ### Scatter-assignment lemmas for `is_accessible` (C4, C10) -/

theorem npIndex_of_range (n : Nat) (i : Int) (h0 : 0 ≤ i) (h1 : i < (n : Int)) :
    npIndex n i = some i.toNat := by
  simp [npIndex, h0, h1]

theorem scatter_assign_ok : ∀ (ps : List (Int × Bool)) (a : List Bool),
    (∀ p ∈ ps, (npIndex a.length p.1).isSome) →
    ∃ b, scatter_assign a ps = Except.ok b := by
  intro ps
  induction ps with
  | nil => exact fun a _ => ⟨a, rfl⟩
  | cons p rest ih =>
    intro a h
    obtain ⟨i, v⟩ := p
    have hp := h (i, v) (by simp)
    cases hj : npIndex a.length i with
    | none => rw [hj] at hp; simp at hp
    | some j =>
      obtain ⟨b, hbb⟩ := ih (a.set j v)
        (by intro q hq
            rw [List.length_set]
            exact h q (by simp [hq]))
      exact ⟨b, by simp [scatter_assign, hj, hbb]⟩

theorem scatter_assign_length : ∀ (ps : List (Int × Bool)) (a b : List Bool),
    scatter_assign a ps = Except.ok b → b.length = a.length := by
  intro ps
  induction ps with
  | nil =>
    intro a b h
    simp only [scatter_assign, Except.ok.injEq] at h
    rw [h]
  | cons p rest ih =>
    intro a b h
    obtain ⟨i, v⟩ := p
    simp only [scatter_assign] at h
    cases hj : npIndex a.length i with
    | none => rw [hj] at h; exact absurd h (by simp)
    | some j =>
      rw [hj] at h
      rw [ih (a.set j v) b h, List.length_set]

theorem scatter_assign_error : ∀ (ps : List (Int × Bool)) (a : List Bool),
    (∃ p ∈ ps, npIndex a.length p.1 = none) →
    scatter_assign a ps = Except.error Err.IndexError := by
  intro ps
  induction ps with
  | nil => intro a h; simp at h
  | cons p rest ih =>
    intro a h
    obtain ⟨i, v⟩ := p
    cases hj : npIndex a.length i with
    | none => simp [scatter_assign, hj]
    | some j =>
      obtain ⟨q, hq, hqn⟩ := h
      rcases List.mem_cons.mp hq with rfl | hq'
      · rw [hj] at hqn; exact absurd hqn (by simp)
      · have hrest : ∃ p ∈ rest, npIndex (a.set j v).length p.1 = none := by
          refine ⟨q, hq', ?_⟩
          rw [List.length_set]
          exact hqn
        simp [scatter_assign, hj, ih _ hrest]

theorem scatter_assign_get_notmem :
    ∀ (ps : List (Int × Bool)) (a b : List Bool) (j : Nat),
    scatter_assign a ps = Except.ok b →
    (∀ p ∈ ps, npIndex a.length p.1 ≠ some j) →
    b[j]? = a[j]? := by
  intro ps
  induction ps with
  | nil =>
    intro a b j h _
    simp only [scatter_assign, Except.ok.injEq] at h
    rw [h]
  | cons p rest ih =>
    intro a b j h hne
    obtain ⟨i, v⟩ := p
    simp only [scatter_assign] at h
    cases hj : npIndex a.length i with
    | none => rw [hj] at h; exact absurd h (by simp)
    | some j' =>
      rw [hj] at h
      have hj'ne : j' ≠ j := fun e => hne (i, v) (by simp) (e ▸ hj)
      have hrest : ∀ p ∈ rest, npIndex (a.set j' v).length p.1 ≠ some j := by
        intro q hq
        rw [List.length_set]
        exact hne q (by simp [hq])
      rw [ih _ b j h hrest, List.getElem?_set_ne hj'ne]

theorem scatter_assign_get_mem : ∀ (ps : List (Int × Bool)) (a b : List Bool),
    scatter_assign a ps = Except.ok b →
    List.Pairwise (fun p q : Int × Bool => p.1 ≠ q.1) ps →
    (∀ p ∈ ps, 0 ≤ p.1 ∧ p.1 < (a.length : Int)) →
    ∀ p ∈ ps, b[p.1.toNat]? = some p.2 := by
  intro ps
  induction ps with
  | nil => intro a b _ _ _ p hp; simp at hp
  | cons hd rest ih =>
    intro a b h hpw hrange p hp
    obtain ⟨i, v⟩ := hd
    have hr := hrange (i, v) (by simp)
    have hji : npIndex a.length i = some i.toNat := npIndex_of_range _ _ hr.1 hr.2
    simp only [scatter_assign, hji] at h
    rcases List.mem_cons.mp hp with rfl | hp'
    · have hrest : ∀ q ∈ rest,
          npIndex (a.set i.toNat v).length q.1 ≠ some i.toNat := by
        intro q hq
        rw [List.length_set]
        have hq0 := (hrange q (by simp [hq])).1
        have hqlt := (hrange q (by simp [hq])).2
        rw [npIndex_of_range _ _ hq0 hqlt]
        intro e
        have e2 := Option.some.inj e
        have hqi : q.1 = i := by
          calc q.1 = (q.1.toNat : Int) := (Int.toNat_of_nonneg hq0).symm
          _ = (i.toNat : Int) := by rw [e2]
          _ = i := Int.toNat_of_nonneg hr.1
        exact (List.pairwise_cons.mp hpw).1 q hq hqi.symm
      have hlt : (i, v).1.toNat < a.length := by
        have := hr.2
        omega
      rw [scatter_assign_get_notmem rest _ b _ h hrest,
        List.getElem?_set_eq_of_lt _ hlt]
    · refine ih (a.set i.toNat v) b h (List.pairwise_cons.mp hpw).2 ?_ p hp'
      intro q hq
      rw [List.length_set]
      exact hrange q (by simp [hq])

theorem count_true_set : ∀ (a : List Bool) (j : Nat) (v : Bool),
    a[j]? = some false →
    (a.set j v).count true = a.count true + (if v then 1 else 0) := by
  intro a
  induction a with
  | nil => intro j v h; simp at h
  | cons x xs ih =>
    intro j v h
    cases j with
    | zero =>
      simp only [List.getElem?_cons_zero, Option.some.injEq] at h
      subst h
      cases v <;> simp [List.count_cons]
    | succ j' =>
      simp only [List.getElem?_cons_succ] at h
      have := ih j' v h
      cases x <;>
        simp [List.count_cons, this, Nat.add_comm, Nat.add_assoc, Nat.add_left_comm]

theorem scatter_assign_count : ∀ (ps : List (Int × Bool)) (a b : List Bool),
    scatter_assign a ps = Except.ok b →
    List.Pairwise (fun p q : Int × Bool => p.1 ≠ q.1) ps →
    (∀ p ∈ ps, 0 ≤ p.1 ∧ p.1 < (a.length : Int)) →
    (∀ p ∈ ps, a[p.1.toNat]? = some false) →
    b.count true = a.count true + (ps.map Prod.snd).count true := by
  intro ps
  induction ps with
  | nil =>
    intro a b h _ _ _
    simp only [scatter_assign, Except.ok.injEq] at h
    simp [h]
  | cons hd rest ih =>
    intro a b h hpw hrange hfalse
    obtain ⟨i, v⟩ := hd
    have hr := hrange (i, v) (by simp)
    have hji : npIndex a.length i = some i.toNat := npIndex_of_range _ _ hr.1 hr.2
    simp only [scatter_assign, hji] at h
    have hcset := count_true_set a i.toNat v (hfalse (i, v) (by simp))
    have hrest_range : ∀ q ∈ rest,
        0 ≤ q.1 ∧ q.1 < ((a.set i.toNat v).length : Int) := by
      intro q hq
      rw [List.length_set]
      exact hrange q (by simp [hq])
    have hrest_false : ∀ q ∈ rest, (a.set i.toNat v)[q.1.toNat]? = some false := by
      intro q hq
      have hq0 := (hrange q (by simp [hq])).1
      have hne : i.toNat ≠ q.1.toNat := by
        intro e
        have hqi : q.1 = i := by
          calc q.1 = (q.1.toNat : Int) := (Int.toNat_of_nonneg hq0).symm
          _ = (i.toNat : Int) := by rw [e]
          _ = i := Int.toNat_of_nonneg hr.1
        exact (List.pairwise_cons.mp hpw).1 q hq hqi.symm
      rw [List.getElem?_set_ne hne]
      exact hfalse q (by simp [hq])
    have hrec := ih (a.set i.toNat v) b h (List.pairwise_cons.mp hpw).2
      hrest_range hrest_false
    rw [hrec, hcset]
    simp only [List.map_cons, List.count_cons]
    cases v <;>
      simp [Nat.add_comm, Nat.add_assoc, Nat.add_left_comm]

/-! ### C4 — `is_accessible` as a dense accessibility vector -/

/-- C4: under the data invariants (positions 1-based within the contig,
pairwise distinct, aligned 1:1 with the filter array), `is_accessible`
returns a boolean vector of the contig sequence length in which index
`pos - 1` holds the corresponding `filter_pass` value, positions absent from
the site list stay `false`, and the number of `true` entries equals the
number of `true` values in the site-filter array. -/
theorem C4_is_accessible_dense (st : Storage) (contig mask sfa : String)
    (hlen : (st.pos_data contig).length =
      (st.filter_pass contig mask sfa).length)
    (hnd : (st.pos_data contig).Nodup)
    (hrange : ∀ p ∈ st.pos_data contig,
      1 ≤ p ∧ p ≤ ((st.genome contig).length : Int)) :
    ∃ a, is_accessible st contig mask sfa = Except.ok a ∧
      a.length = (genome_sequence st contig).length ∧
      a.count true = (site_filters st contig mask sfa).count true ∧
      (∀ pv ∈ (snp_sites_field_POS st contig).zip
          (site_filters st contig mask sfa),
        a[(pv.1 - 1).toNat]? = some pv.2) ∧
      (∀ i, i < (genome_sequence st contig).length →
        ((i : Int) + 1) ∉ snp_sites_field_POS st contig →
        a[i]? = some false) := by
  set n := (st.genome contig).length with hn
  set pos := st.pos_data contig with hpos
  set fp := st.filter_pass contig mask sfa with hfp
  set out := List.replicate n false with hout
  set idx := pos.map (fun p => p - 1) with hidx
  set ps := idx.zip fp with hps
  have hidxlen : idx.length = pos.length := by simp [hidx]
  have houtlen : out.length = n := by simp [hout]
  have hfst : ps.map Prod.fst = idx :=
    List.map_fst_zip idx fp (by rw [hidxlen, hlen])
  have hsnd : ps.map Prod.snd = fp :=
    List.map_snd_zip idx fp (by rw [hidxlen, hlen])
  have hmem_fst : ∀ p ∈ ps, ∃ p0 ∈ pos, p.1 = p0 - 1 := by
    intro p hp
    have h1 : p.1 ∈ idx := by
      obtain ⟨i, v⟩ := p
      exact (List.of_mem_zip hp).1
    obtain ⟨p0, hp0, he⟩ := List.mem_map.mp h1
    exact ⟨p0, hp0, he.symm⟩
  have hps_range : ∀ p ∈ ps, 0 ≤ p.1 ∧ p.1 < (out.length : Int) := by
    intro p hp
    obtain ⟨p0, hp0, he⟩ := hmem_fst p hp
    have := hrange p0 hp0
    rw [houtlen, he]
    omega
  have hps_pw : List.Pairwise (fun p q : Int × Bool => p.1 ≠ q.1) ps := by
    have hidx_nd : idx.Nodup :=
      hnd.map (fun x y e => by omega)
    have : List.Pairwise (· ≠ ·) (ps.map Prod.fst) := by rw [hfst]; exact hidx_nd
    exact (List.pairwise_map.mp this).imp (fun h => h)
  have hps_false : ∀ p ∈ ps, out[p.1.toNat]? = some false := by
    intro p hp
    have hr := hps_range p hp
    rw [hout, List.getElem?_replicate, if_pos (by rw [← houtlen]; omega)]
  have hps_some : ∀ p ∈ ps, (npIndex out.length p.1).isSome := by
    intro p hp
    have hr := hps_range p hp
    rw [npIndex_of_range _ _ hr.1 hr.2]
    rfl
  obtain ⟨b, hscat⟩ := scatter_assign_ok ps out hps_some
  have hbc : broadcast_to fp pos.length = some fp := by
    simp [broadcast_to, hlen.symm]
  have hacc : is_accessible st contig mask sfa = scatter_assign out ps := by
    simp only [is_accessible, genome_sequence, snp_sites_field_POS,
      site_filters, ← hn, ← hpos, ← hfp, hbc, ← hout, ← hidx, ← hps]
  suffices hsuf : ∃ a, is_accessible st contig mask sfa = Except.ok a ∧
      a.length = n ∧ a.count true = fp.count true ∧
      (∀ pv ∈ pos.zip fp, a[(pv.1 - 1).toNat]? = some pv.2) ∧
      (∀ i, i < n → ((i : Int) + 1) ∉ pos → a[i]? = some false) by exact hsuf
  refine ⟨b, by rw [hacc, hscat], ?_, ?_, ?_, ?_⟩
  · rw [scatter_assign_length ps out b hscat, houtlen]
  · rw [scatter_assign_count ps out b hscat hps_pw hps_range hps_false, hsnd]
    simp [hout, List.count_replicate]
  · intro pv hpv
    have hmem : (pv.1 - 1, pv.2) ∈ ps := by
      rw [hps, hidx, List.zip_map_left]
      exact List.mem_map.mpr ⟨pv, hpv, rfl⟩
    exact scatter_assign_get_mem ps out b hscat hps_pw hps_range _ hmem
  · intro i hi hnotmem
    have hne : ∀ p ∈ ps, npIndex out.length p.1 ≠ some i := by
      intro p hp
      obtain ⟨p0, hp0, he⟩ := hmem_fst p hp
      have hr := hps_range p hp
      rw [npIndex_of_range _ _ hr.1 hr.2]
      intro e
      have e2 := Option.some.inj e
      have : p0 = (i : Int) + 1 := by
        have h1 := hrange p0 hp0
        omega
      exact hnotmem (this ▸ hp0)
    rw [scatter_assign_get_notmem ps out b i hscat hne, hout,
      List.getElem?_replicate, if_pos hi]

/-- A concrete store for the C4 witness: a four-base contig with two sites at
positions 1 and 3, one passing the filter. -/
def stC4 : Storage where
  releases := ["v3"]
  manifest := fun _ => []
  general_metadata := fun _ => []
  species_calls_data := fun _ _ _ => []
  filter_pass := fun _ _ _ => [true, false]
  pos_data := fun _ => [1, 3]
  ref_data := fun _ => []
  alt_data := fun _ => []
  calldata := fun _ _ _ => []
  genome := fun _ => ['A', 'C', 'G', 'T']

theorem C4_is_accessible_dense_witness :
    ∃ a, is_accessible stC4 "c" "m" "dt_20200416" = Except.ok a ∧
      a.length = (genome_sequence stC4 "c").length ∧
      a.count true = (site_filters stC4 "c" "m" "dt_20200416").count true ∧
      (∀ pv ∈ (snp_sites_field_POS stC4 "c").zip
          (site_filters stC4 "c" "m" "dt_20200416"),
        a[(pv.1 - 1).toNat]? = some pv.2) ∧
      (∀ i, i < (genome_sequence stC4 "c").length →
        ((i : Int) + 1) ∉ snp_sites_field_POS stC4 "c" →
        a[i]? = some false) :=
  C4_is_accessible_dense stC4 "c" "m" "dt_20200416"
    (by decide) (by decide) (by decide)

/-! ### C10 — bounds behaviour of the unguarded scatter write -/

theorem npIndex_isSome_of_wrap (n : Nat) (i : Int) (h0 : -(n : Int) ≤ i)
    (h1 : i < (n : Int)) : (npIndex n i).isSome = true := by
  unfold npIndex
  split
  · rfl
  · rename_i hnot
    push_neg at hnot
    rw [if_pos ⟨by omega, by omega⟩]
    rfl

theorem npIndex_none_of_oob (n : Nat) (i : Int)
    (h : (n : Int) ≤ i ∨ i < -(n : Int)) : npIndex n i = none := by
  have h1 : ¬(0 ≤ i ∧ i < (n : Int)) := by rintro ⟨a1, a2⟩; omega
  have h2 : ¬(0 ≤ i + (n : Int) ∧ i < 0) := by rintro ⟨a1, a2⟩; omega
  unfold npIndex
  rw [if_neg h1, if_neg h2]

/-- C10 (amended): the scatter write of `is_accessible` is unguarded.  With
the position and filter arrays aligned, every POS value in `1 ..
seq_length` gives an in-bounds write and the operation cannot fail on
indexing (first conjunct).  The precondition is assumed, not checked — but a
POS value outside that range only fails when it is above `seq_length` or
below `1 - seq_length` (third conjunct); a POS value in `1 - seq_length ..
0` follows NumPy's negative-index wrap-around and is written near the end of
the vector instead of failing (second conjunct). -/
theorem C10_scatter_bounds (st : Storage) (contig m sfa : String)
    (hlen : (st.pos_data contig).length =
      (st.filter_pass contig m sfa).length) :
    ((∀ p ∈ st.pos_data contig,
        1 ≤ p ∧ p ≤ ((st.genome contig).length : Int)) →
      ∃ a, is_accessible st contig m sfa = Except.ok a) ∧
    ((∀ p ∈ st.pos_data contig,
        1 - ((st.genome contig).length : Int) ≤ p ∧
          p ≤ ((st.genome contig).length : Int)) →
      ∃ a, is_accessible st contig m sfa = Except.ok a) ∧
    ((∃ p ∈ st.pos_data contig,
        ((st.genome contig).length : Int) < p ∨
          p < 1 - ((st.genome contig).length : Int)) →
      is_accessible st contig m sfa = Except.error Err.IndexError) := by
  set n := (st.genome contig).length with hn
  set pos := st.pos_data contig with hpos
  set fp := st.filter_pass contig m sfa with hfp
  set out := List.replicate n false with hout
  set idx := pos.map (fun p => p - 1) with hidx
  set ps := idx.zip fp with hps
  have hidxlen : idx.length = pos.length := by simp [hidx]
  have houtlen : out.length = n := by simp [hout]
  have hbc : broadcast_to fp pos.length = some fp := by
    simp [broadcast_to, hlen.symm]
  have hacc : is_accessible st contig m sfa = scatter_assign out ps := by
    simp only [is_accessible, genome_sequence, snp_sites_field_POS,
      site_filters, ← hn, ← hpos, ← hfp, hbc, ← hout, ← hidx, ← hps]
  have hmem_fst : ∀ p ∈ ps, ∃ p0 ∈ pos, p.1 = p0 - 1 := by
    intro p hp
    have h1 : p.1 ∈ idx := by
      obtain ⟨i, v⟩ := p
      exact (List.of_mem_zip hp).1
    obtain ⟨p0, hp0, he⟩ := List.mem_map.mp h1
    exact ⟨p0, hp0, he.symm⟩
  have hwrap : (∀ p ∈ pos, 1 - (n : Int) ≤ p ∧ p ≤ (n : Int)) →
      ∃ a, is_accessible st contig m sfa = Except.ok a := by
    intro hr
    obtain ⟨b, hscat⟩ := scatter_assign_ok ps out (by
      intro p hp
      obtain ⟨p0, hp0, he⟩ := hmem_fst p hp
      have := hr p0 hp0
      rw [houtlen, he]
      exact npIndex_isSome_of_wrap n (p0 - 1) (by omega) (by omega))
    exact ⟨b, by rw [hacc, hscat]⟩
  refine ⟨?_, hwrap, ?_⟩
  · intro hr
    exact hwrap (fun p hp => by have := hr p hp; omega)
  · intro hx
    obtain ⟨p0, hp0, hbad⟩ := hx
    obtain ⟨k, hk, hkp⟩ := List.mem_iff_getElem.mp hp0
    have hklen : k < ps.length := by
      rw [hps, List.length_zip, hidxlen, ← hlen]
      omega
    have hkidx : k < idx.length := by rw [hidxlen]; exact hk
    have hpsk1 : (ps[k]).1 = pos[k] - 1 := by
      simp only [hps, List.getElem_zip, hidx, List.getElem_map]
    have hnone : npIndex out.length (ps[k]).1 = none := by
      rw [houtlen, hpsk1, hkp]
      exact npIndex_none_of_oob n (p0 - 1) (by omega)
    rw [hacc]
    exact scatter_assign_error ps out ⟨ps[k], List.getElem_mem hklen, hnone⟩

/-- A two-base contig whose single site has POS 0 — outside the 1-based
range — with a passing filter value. -/
def stC10 : Storage where
  releases := ["v3"]
  manifest := fun _ => []
  general_metadata := fun _ => []
  species_calls_data := fun _ _ _ => []
  filter_pass := fun _ _ _ => [true]
  pos_data := fun _ => [0]
  ref_data := fun _ => []
  alt_data := fun _ => []
  calldata := fun _ _ _ => []
  genome := fun _ => ['A', 'C']

/-- A two-base contig whose single site has POS 5, beyond even the
wrap-around range. -/
def stC10b : Storage where
  releases := ["v3"]
  manifest := fun _ => []
  general_metadata := fun _ => []
  species_calls_data := fun _ _ _ => []
  filter_pass := fun _ _ _ => [true]
  pos_data := fun _ => [5]
  ref_data := fun _ => []
  alt_data := fun _ => []
  calldata := fun _ _ _ => []
  genome := fun _ => ['A', 'C']

/-- Refutes C10 as stated: POS 0 lies outside `1 .. seq_length`, yet
`is_accessible` does not fail — NumPy's negative-index rule wraps the write
to the last element, so the call succeeds with the final position marked
accessible. -/
theorem C10_counterexample_pos_zero_wraps :
    (0 : Int) ∈ stC10.pos_data "c" ∧
    ¬(1 ≤ (0 : Int) ∧ (0 : Int) ≤ ((stC10.genome "c").length : Int)) ∧
    is_accessible stC10 "c" "m" "dt_20200416" = Except.ok [false, true] := by
  decide

theorem C10_scatter_bounds_witness :
    (∃ a, is_accessible stC4 "c" "m" "dt_20200416" = Except.ok a) ∧
    (∃ a, is_accessible stC10 "c" "m" "dt_20200416" = Except.ok a) ∧
    is_accessible stC10b "c" "m" "dt_20200416" = Except.error Err.IndexError :=
  ⟨(C10_scatter_bounds stC4 "c" "m" "dt_20200416" (by decide)).1 (by decide),
   (C10_scatter_bounds stC10 "c" "m" "dt_20200416" (by decide)).2.1 (by decide),
   (C10_scatter_bounds stC10b "c" "m" "dt_20200416" (by decide)).2.2 (by decide)⟩

/-! ### Cache lemmas for the stateful layer (C6, C7) -/

theorem sample_setsM_hit (w : World) (r : String) (s : Ag3State) (h : Handle)
    (hr : r ∈ w.releases) (hl : alookup s.cache_sample_sets r = some h) :
    sample_setsM w r s = (Except.ok (h, w.manifest r), s) := by
  unfold sample_setsM
  rw [if_pos hr, hl]

theorem sample_setsM_caches (w : World) (r : String) (s s1 : Ag3State)
    (h : Handle) (man : List String)
    (hc : sample_setsM w r s = (Except.ok (h, man), s1)) :
    r ∈ w.releases ∧ man = w.manifest r ∧
      alookup s1.cache_sample_sets r = some h := by
  unfold sample_setsM at hc
  by_cases hr : r ∈ w.releases
  · rw [if_pos hr] at hc
    refine ⟨hr, ?_⟩
    cases hl : alookup s.cache_sample_sets r with
    | some h0 =>
      rw [hl] at hc
      simp only [Prod.mk.injEq, Except.ok.injEq] at hc
      obtain ⟨⟨h1, h2⟩, h3⟩ := hc
      subst h1
      subst h3
      exact ⟨h2.symm, hl⟩
    | none =>
      rw [hl] at hc
      by_cases hok : w.ok_manifest r = true
      · rw [if_pos hok] at hc
        simp only [Prod.mk.injEq, Except.ok.injEq] at hc
        obtain ⟨⟨h1, h2⟩, h3⟩ := hc
        subst h1
        rw [← h3]
        exact ⟨h2.symm, by simp [alookup]⟩
      · rw [if_neg hok] at hc
        exact absurd hc (by simp)
  · rw [if_neg hr] at hc
    exact absurd hc (by simp)

theorem read_general_metadataM_hit (w : World) (ss : String) (s : Ag3State)
    (h : Handle) (hl : alookup s.cache_general_metadata ss = some h) :
    read_general_metadataM w ss s = (Except.ok h, s) := by
  unfold read_general_metadataM
  rw [hl]

theorem read_general_metadataM_caches (w : World) (ss : String)
    (s s1 : Ag3State) (h : Handle)
    (hc : read_general_metadataM w ss s = (Except.ok h, s1)) :
    alookup s1.cache_general_metadata ss = some h := by
  unfold read_general_metadataM at hc
  cases hl : alookup s.cache_general_metadata ss with
  | some h0 =>
    rw [hl] at hc
    simp only [Prod.mk.injEq, Except.ok.injEq] at hc
    obtain ⟨h1, h2⟩ := hc
    subst h1
    rw [← h2]
    exact hl
  | none =>
    rw [hl] at hc
    cases hlr : lookup_releaseM w ss w.releases s with
    | mk res s2 =>
      rw [hlr] at hc
      cases res with
      | error e => exact absurd hc (by simp)
      | ok rel =>
        simp only at hc
        by_cases hok : w.ok_general ss = true
        · rw [if_pos hok] at hc
          simp only [Prod.mk.injEq, Except.ok.injEq] at hc
          obtain ⟨h1, h2⟩ := hc
          subst h1
          rw [← h2]
          simp [alookup]
        · rw [if_neg hok] at hc
          exact absurd hc (by simp)

theorem read_species_callsM_hit (w : World) (ss an me : String) (s : Ag3State)
    (h : Handle) (hl : alookup s.cache_species_calls (ss, an, me) = some h) :
    read_species_callsM w ss an me s = (Except.ok h, s) := by
  unfold read_species_callsM
  rw [hl]

theorem read_species_callsM_caches (w : World) (ss an me : String)
    (s s1 : Ag3State) (h : Handle)
    (hc : read_species_callsM w ss an me s = (Except.ok h, s1)) :
    alookup s1.cache_species_calls (ss, an, me) = some h := by
  unfold read_species_callsM at hc
  cases hl : alookup s.cache_species_calls (ss, an, me) with
  | some h0 =>
    rw [hl] at hc
    simp only [Prod.mk.injEq, Except.ok.injEq] at hc
    obtain ⟨h1, h2⟩ := hc
    subst h1
    rw [← h2]
    exact hl
  | none =>
    rw [hl] at hc
    cases hlr : lookup_releaseM w ss w.releases s with
    | mk res s2 =>
      rw [hlr] at hc
      cases res with
      | error e => exact absurd hc (by simp)
      | ok rel =>
        simp only at hc
        by_cases hok : w.ok_species ss an me = true
        · rw [if_pos hok] at hc
          simp only [Prod.mk.injEq, Except.ok.injEq] at hc
          obtain ⟨h1, h2⟩ := hc
          subst h1
          rw [← h2]
          simp [alookup]
        · rw [if_neg hok] at hc
          exact absurd hc (by simp)

theorem open_site_filtersM_hit (w : World) (mask an : String) (s : Ag3State)
    (h : Handle) (hl : alookup s.cache_site_filters (mask, an) = some h) :
    open_site_filtersM w mask an s = (Except.ok h, s) := by
  unfold open_site_filtersM
  rw [hl]

theorem open_site_filtersM_caches (w : World) (mask an : String)
    (s s1 : Ag3State) (h : Handle)
    (hc : open_site_filtersM w mask an s = (Except.ok h, s1)) :
    alookup s1.cache_site_filters (mask, an) = some h := by
  unfold open_site_filtersM at hc
  cases hl : alookup s.cache_site_filters (mask, an) with
  | some h0 =>
    rw [hl] at hc
    simp only [Prod.mk.injEq, Except.ok.injEq] at hc
    obtain ⟨h1, h2⟩ := hc
    subst h1
    rw [← h2]
    exact hl
  | none =>
    rw [hl] at hc
    by_cases hok : w.ok_site_filters mask an = true
    · rw [if_pos hok] at hc
      simp only [Prod.mk.injEq, Except.ok.injEq] at hc
      obtain ⟨h1, h2⟩ := hc
      subst h1
      rw [← h2]
      simp [alookup]
    · rw [if_neg hok] at hc
      exact absurd hc (by simp)

theorem open_snp_genotypesM_hit (w : World) (ss : String) (s : Ag3State)
    (h : Handle) (hl : alookup s.cache_snp_genotypes ss = some h) :
    open_snp_genotypesM w ss s = (Except.ok h, s) := by
  unfold open_snp_genotypesM
  rw [hl]

theorem open_snp_genotypesM_caches (w : World) (ss : String)
    (s s1 : Ag3State) (h : Handle)
    (hc : open_snp_genotypesM w ss s = (Except.ok h, s1)) :
    alookup s1.cache_snp_genotypes ss = some h := by
  unfold open_snp_genotypesM at hc
  cases hl : alookup s.cache_snp_genotypes ss with
  | some h0 =>
    rw [hl] at hc
    simp only [Prod.mk.injEq, Except.ok.injEq] at hc
    obtain ⟨h1, h2⟩ := hc
    subst h1
    rw [← h2]
    exact hl
  | none =>
    rw [hl] at hc
    cases hlr : lookup_releaseM w ss w.releases s with
    | mk res s2 =>
      rw [hlr] at hc
      cases res with
      | error e => exact absurd hc (by simp)
      | ok rel =>
        simp only at hc
        by_cases hok : w.ok_genotypes ss = true
        · rw [if_pos hok] at hc
          simp only [Prod.mk.injEq, Except.ok.injEq] at hc
          obtain ⟨h1, h2⟩ := hc
          subst h1
          rw [← h2]
          simp [alookup]
        · rw [if_neg hok] at hc
          exact absurd hc (by simp)

theorem sample_setsM_preserves (w : World) (r : String) (s : Ag3State) :
    (sample_setsM w r s).2.cache_general_metadata = s.cache_general_metadata ∧
    (sample_setsM w r s).2.cache_species_calls = s.cache_species_calls ∧
    (sample_setsM w r s).2.cache_site_filters = s.cache_site_filters ∧
    (sample_setsM w r s).2.cache_snp_genotypes = s.cache_snp_genotypes := by
  unfold sample_setsM
  split
  · split
    · simp
    · split
      · simp
      · simp
  · simp

theorem lookup_releaseM_preserves (w : World) (ss : String) :
    ∀ (rs : List String) (s : Ag3State),
      (lookup_releaseM w ss rs s).2.cache_general_metadata =
        s.cache_general_metadata ∧
      (lookup_releaseM w ss rs s).2.cache_species_calls =
        s.cache_species_calls ∧
      (lookup_releaseM w ss rs s).2.cache_site_filters =
        s.cache_site_filters ∧
      (lookup_releaseM w ss rs s).2.cache_snp_genotypes =
        s.cache_snp_genotypes := by
  intro rs
  induction rs with
  | nil => intro s; simp [lookup_releaseM]
  | cons r rest ih =>
    intro s
    have hpres := sample_setsM_preserves w r s
    unfold lookup_releaseM
    cases hss : sample_setsM w r s with
    | mk res s2 =>
      rw [hss] at hpres
      cases res with
      | error e => exact hpres
      | ok pr =>
        obtain ⟨hh, man⟩ := pr
        simp only
        split
        · exact hpres
        · have := ih s2
          exact ⟨by rw [this.1, hpres.1], by rw [this.2.1, hpres.2.1],
            by rw [this.2.2.1, hpres.2.2.1], by rw [this.2.2.2, hpres.2.2.2]⟩

theorem sample_setsM_error_state (w : World) (r : String) (s s1 : Ag3State)
    (e : Err) (hc : sample_setsM w r s = (Except.error e, s1)) : s1 = s := by
  unfold sample_setsM at hc
  split at hc
  · split at hc
    · exact absurd hc (by simp)
    · split at hc
      · exact absurd hc (by simp)
      · simp only [Prod.mk.injEq] at hc
        exact hc.2.symm
  · simp only [Prod.mk.injEq] at hc
    exact hc.2.symm

theorem read_general_metadataM_error_cache (w : World) (ss : String)
    (s s1 : Ag3State) (e : Err)
    (hc : read_general_metadataM w ss s = (Except.error e, s1)) :
    s1.cache_general_metadata = s.cache_general_metadata := by
  unfold read_general_metadataM at hc
  cases hl : alookup s.cache_general_metadata ss with
  | some h0 => rw [hl] at hc; exact absurd hc (by simp)
  | none =>
    rw [hl] at hc
    have hpres := lookup_releaseM_preserves w ss w.releases s
    cases hlr : lookup_releaseM w ss w.releases s with
    | mk res s2 =>
      rw [hlr] at hpres hc
      cases res with
      | error e2 =>
        simp only [Prod.mk.injEq] at hc
        rw [← hc.2]
        exact hpres.1
      | ok rel =>
        simp only at hc
        by_cases hok : w.ok_general ss = true
        · rw [if_pos hok] at hc
          exact absurd hc (by simp)
        · rw [if_neg hok] at hc
          simp only [Prod.mk.injEq] at hc
          rw [← hc.2]
          exact hpres.1

theorem read_species_callsM_error_cache (w : World) (ss an me : String)
    (s s1 : Ag3State) (e : Err)
    (hc : read_species_callsM w ss an me s = (Except.error e, s1)) :
    s1.cache_species_calls = s.cache_species_calls := by
  unfold read_species_callsM at hc
  cases hl : alookup s.cache_species_calls (ss, an, me) with
  | some h0 => rw [hl] at hc; exact absurd hc (by simp)
  | none =>
    rw [hl] at hc
    have hpres := lookup_releaseM_preserves w ss w.releases s
    cases hlr : lookup_releaseM w ss w.releases s with
    | mk res s2 =>
      rw [hlr] at hpres hc
      cases res with
      | error e2 =>
        simp only [Prod.mk.injEq] at hc
        rw [← hc.2]
        exact hpres.2.1
      | ok rel =>
        simp only at hc
        by_cases hok : w.ok_species ss an me = true
        · rw [if_pos hok] at hc
          exact absurd hc (by simp)
        · rw [if_neg hok] at hc
          simp only [Prod.mk.injEq] at hc
          rw [← hc.2]
          exact hpres.2.1

theorem open_site_filtersM_error_state (w : World) (mask an : String)
    (s s1 : Ag3State) (e : Err)
    (hc : open_site_filtersM w mask an s = (Except.error e, s1)) : s1 = s := by
  unfold open_site_filtersM at hc
  cases hl : alookup s.cache_site_filters (mask, an) with
  | some h0 => rw [hl] at hc; exact absurd hc (by simp)
  | none =>
    rw [hl] at hc
    by_cases hok : w.ok_site_filters mask an = true
    · rw [if_pos hok] at hc
      exact absurd hc (by simp)
    · rw [if_neg hok] at hc
      simp only [Prod.mk.injEq] at hc
      exact hc.2.symm

theorem open_snp_genotypesM_error_cache (w : World) (ss : String)
    (s s1 : Ag3State) (e : Err)
    (hc : open_snp_genotypesM w ss s = (Except.error e, s1)) :
    s1.cache_snp_genotypes = s.cache_snp_genotypes := by
  unfold open_snp_genotypesM at hc
  cases hl : alookup s.cache_snp_genotypes ss with
  | some h0 => rw [hl] at hc; exact absurd hc (by simp)
  | none =>
    rw [hl] at hc
    have hpres := lookup_releaseM_preserves w ss w.releases s
    cases hlr : lookup_releaseM w ss w.releases s with
    | mk res s2 =>
      rw [hlr] at hpres hc
      cases res with
      | error e2 =>
        simp only [Prod.mk.injEq] at hc
        rw [← hc.2]
        exact hpres.2.2.2
      | ok rel =>
        simp only at hc
        by_cases hok : w.ok_genotypes ss = true
        · rw [if_pos hok] at hc
          exact absurd hc (by simp)
        · rw [if_neg hok] at hc
          simp only [Prod.mk.injEq] at hc
          rw [← hc.2]
          exact hpres.2.2.2

/-! ### C6 — at most one physical open per cache key -/

/-- C6: for every cache key (release for manifests, sample set for general
metadata and genotype stores, the (sample_set, analysis, method) triple for
species calls, the (mask, analysis) pair for site filters), once a call with
that key has succeeded, a second call with the same key returns the
identical cached handle — same allocation id, so identity-equality, not mere
content equality — and leaves the state untouched: the opener is not
reinvoked and the physical-open counter does not move, giving at most one
physical open per key per instance lifetime. -/
theorem C6_cache_idempotent_second_call :
    (∀ (w : World) (r : String) (s s1 : Ag3State) (h : Handle)
        (man : List String),
      sample_setsM w r s = (Except.ok (h, man), s1) →
      sample_setsM w r s1 = (Except.ok (h, man), s1)) ∧
    (∀ (w : World) (ss : String) (s s1 : Ag3State) (h : Handle),
      read_general_metadataM w ss s = (Except.ok h, s1) →
      read_general_metadataM w ss s1 = (Except.ok h, s1)) ∧
    (∀ (w : World) (ss an me : String) (s s1 : Ag3State) (h : Handle),
      read_species_callsM w ss an me s = (Except.ok h, s1) →
      read_species_callsM w ss an me s1 = (Except.ok h, s1)) ∧
    (∀ (w : World) (mask an : String) (s s1 : Ag3State) (h : Handle),
      open_site_filtersM w mask an s = (Except.ok h, s1) →
      open_site_filtersM w mask an s1 = (Except.ok h, s1)) ∧
    (∀ (w : World) (ss : String) (s s1 : Ag3State) (h : Handle),
      open_snp_genotypesM w ss s = (Except.ok h, s1) →
      open_snp_genotypesM w ss s1 = (Except.ok h, s1)) := by
  refine ⟨?_, ?_, ?_, ?_, ?_⟩
  · intro w r s s1 h man hc
    obtain ⟨hr, hman, hl⟩ := sample_setsM_caches w r s s1 h man hc
    rw [hman]
    exact sample_setsM_hit w r s1 h hr hl
  · intro w ss s s1 h hc
    exact read_general_metadataM_hit w ss s1 h
      (read_general_metadataM_caches w ss s s1 h hc)
  · intro w ss an me s s1 h hc
    exact read_species_callsM_hit w ss an me s1 h
      (read_species_callsM_caches w ss an me s s1 h hc)
  · intro w mask an s s1 h hc
    exact open_site_filtersM_hit w mask an s1 h
      (open_site_filtersM_caches w mask an s s1 h hc)
  · intro w ss s s1 h hc
    exact open_snp_genotypesM_hit w ss s1 h
      (open_snp_genotypesM_caches w ss s s1 h hc)

/-! ### C7 — a failed open does not poison the cache -/

/-- C7: for every cache key, when the open/read operation raises, the cache
dictionary of that resource kind is unchanged — in particular no entry is
stored for the key, so a subsequent call with the same key goes back to the
opener instead of hitting the cache. -/
theorem C7_cache_unpoisoned_on_error :
    (∀ (w : World) (r : String) (s s1 : Ag3State) (e : Err),
      sample_setsM w r s = (Except.error e, s1) →
      s1.cache_sample_sets = s.cache_sample_sets) ∧
    (∀ (w : World) (ss : String) (s s1 : Ag3State) (e : Err),
      read_general_metadataM w ss s = (Except.error e, s1) →
      s1.cache_general_metadata = s.cache_general_metadata) ∧
    (∀ (w : World) (ss an me : String) (s s1 : Ag3State) (e : Err),
      read_species_callsM w ss an me s = (Except.error e, s1) →
      s1.cache_species_calls = s.cache_species_calls) ∧
    (∀ (w : World) (mask an : String) (s s1 : Ag3State) (e : Err),
      open_site_filtersM w mask an s = (Except.error e, s1) →
      s1.cache_site_filters = s.cache_site_filters) ∧
    (∀ (w : World) (ss : String) (s s1 : Ag3State) (e : Err),
      open_snp_genotypesM w ss s = (Except.error e, s1) →
      s1.cache_snp_genotypes = s.cache_snp_genotypes) := by
  refine ⟨?_, ?_, ?_, ?_, ?_⟩
  · intro w r s s1 e hc
    rw [sample_setsM_error_state w r s s1 e hc]
  · intro w ss s s1 e hc
    exact read_general_metadataM_error_cache w ss s s1 e hc
  · intro w ss an me s s1 e hc
    exact read_species_callsM_error_cache w ss an me s s1 e hc
  · intro w mask an s s1 e hc
    rw [open_site_filtersM_error_state w mask an s s1 e hc]
  · intro w ss s s1 e hc
    exact open_snp_genotypesM_error_cache w ss s s1 e hc

/-- The C6 witness world: one release "v3" with one sample set, every
physical open succeeding. -/
def wC6 : World where
  releases := ["v3"]
  manifest := fun r => if r = "v3" then ["SS1"] else []
  ok_manifest := fun _ => true
  ok_general := fun _ => true
  ok_species := fun _ _ _ => true
  ok_site_filters := fun _ _ => true
  ok_genotypes := fun _ => true

/-- The freshly initialized state: all caches empty, no opens yet. -/
def ag0 : Ag3State where
  cache_sample_sets := []
  cache_general_metadata := []
  cache_species_calls := []
  cache_site_filters := []
  cache_snp_genotypes := []
  n_opens := 0

/-- State after the first `sample_setsM wC6 "v3"`. -/
def ags1 : Ag3State where
  cache_sample_sets := [("v3", { id := 0 })]
  cache_general_metadata := []
  cache_species_calls := []
  cache_site_filters := []
  cache_snp_genotypes := []
  n_opens := 1

/-- State after the first `read_general_metadataM wC6 "SS1"`. -/
def ags2g : Ag3State where
  cache_sample_sets := [("v3", { id := 0 })]
  cache_general_metadata := [("SS1", { id := 1 })]
  cache_species_calls := []
  cache_site_filters := []
  cache_snp_genotypes := []
  n_opens := 2

/-- State after the first `read_species_callsM wC6 "SS1" "20200422" "aim"`. -/
def ags2s : Ag3State where
  cache_sample_sets := [("v3", { id := 0 })]
  cache_general_metadata := []
  cache_species_calls := [(("SS1", "20200422", "aim"), { id := 1 })]
  cache_site_filters := []
  cache_snp_genotypes := []
  n_opens := 2

/-- State after the first `open_site_filtersM wC6 "gamb_colu" "dt_20200416"`. -/
def ags1f : Ag3State where
  cache_sample_sets := []
  cache_general_metadata := []
  cache_species_calls := []
  cache_site_filters := [(("gamb_colu", "dt_20200416"), { id := 0 })]
  cache_snp_genotypes := []
  n_opens := 1

/-- State after the first `open_snp_genotypesM wC6 "SS1"`. -/
def ags2t : Ag3State where
  cache_sample_sets := [("v3", { id := 0 })]
  cache_general_metadata := []
  cache_species_calls := []
  cache_site_filters := []
  cache_snp_genotypes := [("SS1", { id := 1 })]
  n_opens := 2

theorem C6_cache_idempotent_second_call_witness :
    sample_setsM wC6 "v3" ags1 = (Except.ok ({ id := 0 }, ["SS1"]), ags1) ∧
    read_general_metadataM wC6 "SS1" ags2g = (Except.ok { id := 1 }, ags2g) ∧
    read_species_callsM wC6 "SS1" "20200422" "aim" ags2s =
      (Except.ok { id := 1 }, ags2s) ∧
    open_site_filtersM wC6 "gamb_colu" "dt_20200416" ags1f =
      (Except.ok { id := 0 }, ags1f) ∧
    open_snp_genotypesM wC6 "SS1" ags2t = (Except.ok { id := 1 }, ags2t) :=
  ⟨C6_cache_idempotent_second_call.1 wC6 "v3" ag0 ags1 { id := 0 } ["SS1"]
      (by decide),
   C6_cache_idempotent_second_call.2.1 wC6 "SS1" ag0 ags2g { id := 1 }
      (by decide),
   C6_cache_idempotent_second_call.2.2.1 wC6 "SS1" "20200422" "aim" ag0 ags2s
      { id := 1 } (by decide),
   C6_cache_idempotent_second_call.2.2.2.1 wC6 "gamb_colu" "dt_20200416" ag0
      ags1f { id := 0 } (by decide),
   C6_cache_idempotent_second_call.2.2.2.2 wC6 "SS1" ag0 ags2t { id := 1 }
      (by decide)⟩

/-- The C7 witness world whose manifest read fails. -/
def wC7m : World where
  releases := ["v3"]
  manifest := fun r => if r = "v3" then ["SS1"] else []
  ok_manifest := fun _ => false
  ok_general := fun _ => true
  ok_species := fun _ _ _ => true
  ok_site_filters := fun _ _ => true
  ok_genotypes := fun _ => true

/-- The C7 witness world whose manifest read succeeds while every other
physical open fails. -/
def wC7 : World where
  releases := ["v3"]
  manifest := fun r => if r = "v3" then ["SS1"] else []
  ok_manifest := fun _ => true
  ok_general := fun _ => false
  ok_species := fun _ _ _ => false
  ok_site_filters := fun _ _ => false
  ok_genotypes := fun _ => false

theorem C7_cache_unpoisoned_on_error_witness :
    ag0.cache_sample_sets = ag0.cache_sample_sets ∧
    ags1.cache_general_metadata = ag0.cache_general_metadata ∧
    ags1.cache_species_calls = ag0.cache_species_calls ∧
    ag0.cache_site_filters = ag0.cache_site_filters ∧
    ags1.cache_snp_genotypes = ag0.cache_snp_genotypes :=
  ⟨C7_cache_unpoisoned_on_error.1 wC7m "v3" ag0 ag0 Err.StorageError
      (by decide),
   C7_cache_unpoisoned_on_error.2.1 wC7 "SS1" ag0 ags1 Err.StorageError
      (by decide),
   C7_cache_unpoisoned_on_error.2.2.1 wC7 "SS1" "20200422" "aim" ag0 ags1
      Err.StorageError (by decide),
   C7_cache_unpoisoned_on_error.2.2.2.1 wC7 "gamb_colu" "dt_20200416" ag0 ag0
      Err.StorageError (by decide),
   C7_cache_unpoisoned_on_error.2.2.2.2 wC7 "SS1" ag0 ags1 Err.StorageError
      (by decide)⟩

end Ag3Spec
